import Mathlib

/-!
# FalconIndex: the index-level lifecycle and query orchestrator

A shallow embedding of `src/FalconIndex/index.go`.

* Go maps (`map[string]T`) are association lists; a key is inserted at the end and
  `range` visits the entries in list order (Go leaves the order unspecified).
* `uint32` / `uint64` counters are natural numbers reduced modulo `2^32` / `2^64`.
* A Go `error` is an `Option String`, `none` being `nil`.
* The collaborators of package `FalconIndex` (`segment`, `tree`, `utils`) are not among
  the sources; they are modelled from the specification, and the result of every
  fallible call into them is read from an `Outcomes` record supplied with the call.
* A run-time panic (nil dereference, slice bounds) is the result `none` of an operation
  whose result type is an `Option`.
-/

namespace FalconIndex

/-- Go `error`: `none` is `nil`. -/
abbrev Error := Option String

/-- Go `map[string]string`, the content of a document. -/
abbrev Content := List (String × String)

/-- Modelled from the spec: `utils.SimpleFieldInfo`, `{ name, type }` (section 3); the type
tag is a `uint64`. -/
structure SimpleFieldInfo where
  FieldName : String
  FieldType : Nat
deriving DecidableEq, Repr

/-- Modelled from the spec: the constant `utils.IDX_TYPE_STRING_SEG` (tokenized string). -/
def IDX_TYPE_STRING_SEG : Nat := 2

/-- Modelled from the spec: the constant `utils.IDX_TYPE_PK` (type `PRIMARY_KEY`). -/
def IDX_TYPE_PK : Nat := 21

/-- Modelled from the spec: the constant `utils.DEFAULT_PRIMARY_KEY`, the reserved name of
the synthetic default primary key. -/
def DEFAULT_PRIMARY_KEY : String := "_primary"

/-- Modelled from the spec: `utils.DocIdNode`, `{ docid: u32, weight: u32 }`. -/
structure DocIdNode where
  Docid : Nat
  Weight : Nat
deriving DecidableEq, Repr

/-- Modelled from the spec: `utils.FSSearchQuery`, `{ field_name, value, query_type }`. -/
structure FSSearchQuery where
  FieldName : String
  Value : String
  QueryType : Nat
deriving DecidableEq, Repr

/-- Modelled from the spec: `utils.FSSearchFilted`, `{ field_name, range_or_value,
filter_type }`. -/
structure FSSearchFilted where
  FieldName : String
  Start : Int
  End : Int
  FilterType : Nat
deriving DecidableEq, Repr

/-- Modelled from the spec: `utils.Bitmap`, the set of deleted docids (bit `i` set means
docid `i` is deleted). -/
abbrev Bitmap := List Nat

/-- Results of the fallible calls an operation makes into its collaborators, and the UUID
minted by `utils.NewV4`. -/
structure Outcomes where
  /-- result of `utils.WriteToJson` in the (first) `storeStruct` of the operation -/
  WriteToJson : Error
  /-- result of `utils.WriteToJson` in the second `storeStruct` of `MergeSegments` -/
  WriteToJson2 : Error
  /-- result of `Segment.Serialization` -/
  Serialization : Error
  /-- result of `Segment.AddField` -/
  SegAddField : Error
  /-- result of `BTreedb.Set` -/
  Set : Error
  /-- result of `Segment.AddDocument` -/
  AddDocument : Error
  /-- string of the UUID returned by `utils.NewV4` -/
  uuid : String
deriving DecidableEq, Repr

/-- Every collaborator call succeeds. -/
def Outcomes.ok : Outcomes :=
  { WriteToJson := none, WriteToJson2 := none, Serialization := none, SegAddField := none,
    Set := none, AddDocument := none, uuid := "uuid" }

/-! ## The persistent B+-tree (`tree.BTreedb`) -/

/-- Modelled from the spec: `tree.BTreedb`, the `KVTree` contract of section 6, a persistent
ordered map `(namespace, key) → u64` with registered namespaces. -/
structure BTreedb where
  btmap : List String
  entries : List ((String × String) × Nat)
deriving DecidableEq, Repr

/-- Modelled from the spec: `tree.NewBTDB`, an empty tree file. -/
def NewBTDB : BTreedb := { btmap := [], entries := [] }

/-- Modelled from the spec: `add_btree(namespace)` registers a namespace. -/
def BTreedb.AddBTree (db : BTreedb) (name : String) : BTreedb :=
  { db with btmap := db.btmap ++ [name] }

/-- Modelled from the spec: `set(namespace, key, u64)`; when the call fails the tree is
unchanged, otherwise the mapping of `(namespace, key)` is installed, replacing an older
one. -/
def BTreedb.Set (db : BTreedb) (res : Error) (btname key : String) (value : Nat) :
    Error × BTreedb :=
  match res with
  | some err => (some err, db)
  | none =>
    (none, { db with entries :=
      ((btname, key), value) :: db.entries.filter (fun e => e.1 != (btname, key)) })

/-- Modelled from the spec: `search(namespace, key) → (found, u64)`. -/
def BTreedb.Search (db : BTreedb) (btname key : String) : Bool × Nat :=
  match db.entries.lookup (btname, key) with
  | some v => (true, v)
  | none => (false, 0)

/-! ## Segments (`fis.Segment`) -/

/-- Modelled from the spec: the segment handle of section 3, characterized by
`segment_name`, `start_docid`, `max_docid`, together with its field layout and the
documents written to it. -/
structure Segment where
  SegmentName : String
  StartDocId : Nat
  MaxDocId : Nat
  fields : List SimpleFieldInfo
  docs : List (Nat × Content)
deriving DecidableEq, Repr

/-- Modelled from the spec: `new_empty(name, start_docid, fields, dict, logger)`; a new
empty segment has `MaxDocId == StartDocId`. -/
def NewEmptySegmentWithFieldsInfo (segmentname : String) (start : Nat)
    (fields : List SimpleFieldInfo) : Segment :=
  { SegmentName := segmentname, StartDocId := start, MaxDocId := start, fields := fields,
    docs := [] }

/-- Modelled from the spec: `open(name, dict, logger)` reopens immutably the segment that
was written under that name; the handle has the name, docid range, fields and documents
that were written. -/
def NewSegmentWithLocalFile (written : Segment) : Segment := written

/-- Modelled from the spec: `is_empty()`, "no docs added". -/
def Segment.IsEmpty (seg : Segment) : Bool := seg.docs.isEmpty

/-- Modelled from the spec: `add_field(f)`; a failed call leaves the segment as it was. -/
def Segment.AddField (seg : Segment) (res : Error) (field : SimpleFieldInfo) :
    Error × Segment :=
  match res with
  | some err => (some err, seg)
  | none => (none, { seg with fields := seg.fields ++ [field] })

/-- Modelled from the spec: `delete_field(name)`. -/
def Segment.DeleteField (seg : Segment) (fieldname : String) : Segment :=
  { seg with fields := seg.fields.filter (fun f => f.FieldName != fieldname) }

/-- Modelled from the spec: `add_document(docid, content)`; a successful call stores the
content under `docid` and extends `MaxDocId` to `docid + 1` (a `uint32`); a failed call
leaves the segment as it was. -/
def Segment.AddDocument (seg : Segment) (res : Error) (docid : Nat) (content : Content) :
    Error × Segment :=
  match res with
  | some err => (some err, seg)
  | none =>
    (none, { seg with MaxDocId := (docid + 1) % 2 ^ 32, docs := seg.docs ++ [(docid, content)] })

/-- Modelled from the spec: `get_document(docid)`, all fields of the document. -/
def Segment.GetDocument (seg : Segment) (docid : Nat) : Option Content × Bool :=
  match seg.docs.lookup docid with
  | some c => (some c, true)
  | none => (none, false)

/-- Modelled from the spec: `merge(others)` rewrites the content of the merged segments
into the receiver; the union of docids is unchanged, so the receiver ends where the last
merged segment ends. -/
def Segment.MergeSegments (seg : Segment) (others : List Segment) : Segment :=
  { seg with
    MaxDocId := match others.getLast? with
      | some last => last.MaxDocId
      | none => seg.MaxDocId
    docs := seg.docs ++ (others.map (fun s => s.docs)).flatten }

/-! ## The index -/

/-- The `Index` struct. The mutex and the logger carry no state of the model. -/
structure Index where
  Name : String
  Pathname : String
  Fields : List (String × SimpleFieldInfo)
  PrimaryKey : String
  StartDocId : Nat
  MaxDocId : Nat
  PrefixSegment : Nat
  SegmentNames : List String
  segments : List Segment
  memorySegment : Option Segment
  primary : BTreedb
  bitmap : Bitmap
  dict : BTreedb
  fieldnames : List String
deriving DecidableEq, Repr

/-- Constructor `NewEmptyIndex(name, pathname, logger)`. -/
def NewEmptyIndex (name pathname : String) : Index :=
  { Name := name, Pathname := pathname, Fields := [],
    PrimaryKey := DEFAULT_PRIMARY_KEY,
    StartDocId := 0, MaxDocId := 0, PrefixSegment := 1000,
    SegmentNames := [], segments := [], memorySegment := none,
    primary := NewBTDB.AddBTree DEFAULT_PRIMARY_KEY,
    bitmap := [], dict := NewBTDB, fieldnames := [] }

/-- The name minted for a new segment: `fmt.Sprintf("%v%v_%v", Pathname, Name,
PrefixSegment)`. -/
def Index.newSegmentName (this : Index) : String :=
  this.Pathname ++ this.Name ++ "_" ++ toString this.PrefixSegment

/-- The loop `for _, f := range this.Fields { if f.FieldType != utils.IDX_TYPE_PK
{ fields = append(fields, f) } }`. -/
def Index.nonPKFields (this : Index) : List SimpleFieldInfo :=
  (this.Fields.map Prod.snd).filter (fun f => f.FieldType != IDX_TYPE_PK)

/-- Method `storeStruct()`: writes the meta file; its result is that of `utils.WriteToJson`. -/
def Index.storeStruct (_this : Index) (res : Error) : Error :=
  match res with
  | some err => some err
  | none => none

/-- The segment built by `fis.NewEmptySegmentWithFieldsInfo(segmentname, this.MaxDocId,
fields, this.dict, this.Logger)` from the minted name and the non-PK fields. -/
def Index.freshSegment (this : Index) : Segment :=
  NewEmptySegmentWithFieldsInfo this.newSegmentName this.MaxDocId this.nonPKFields

/-- The statements shared by `AddField`, `DeleteField` and `UpdateDocument`: mint a segment
name, collect the non-PK fields, install a fresh mutable segment starting at `MaxDocId`,
`PrefixSegment++`. -/
def Index.newMemorySegment (this : Index) : Index :=
  { this with
    memorySegment := some this.freshSegment
    PrefixSegment := (this.PrefixSegment + 1) % 2 ^ 64 }

/-- The statements shared by `AddField` and `DeleteField` once the mutable segment
`tmpsegment` is serialized: append it to the roster and rebuild `SegmentNames`. -/
def Index.sealSegment (this : Index) (tmpsegment : Segment) : Index :=
  { this with
    segments := this.segments ++ [tmpsegment]
    SegmentNames := (this.segments ++ [tmpsegment]).map (fun seg => seg.SegmentName) }

/-- The first statements of `AddField` for a new field: `this.Fields[field.FieldName] =
field`, `this.fieldnames = append(this.fieldnames, field.FieldName)`, and
`this.dict.AddBTree(field.FieldName)` for a tokenized string field. -/
def Index.withField (this : Index) (field : SimpleFieldInfo) : Index :=
  let this := { this with
    Fields := this.Fields ++ [(field.FieldName, field)]
    fieldnames := this.fieldnames ++ [field.FieldName] }
  if field.FieldType = IDX_TYPE_STRING_SEG then
    { this with dict := this.dict.AddBTree field.FieldName }
  else this

/-- Method `AddField(field)`. -/
def Index.AddField (this : Index) (o : Outcomes) (field : SimpleFieldInfo) : Error × Index :=
  if (this.Fields.lookup field.FieldName).isSome then (none, this)
  else
    let this := this.withField field
    if field.FieldType = IDX_TYPE_PK then
      let this := { this with
        PrimaryKey := field.FieldName
        primary := this.primary.AddBTree field.FieldName }
      (this.storeStruct o.WriteToJson, this)
    else
      match this.memorySegment with
      | none =>
        let this := this.newMemorySegment
        (this.storeStruct o.WriteToJson, this)
      | some seg =>
        if seg.IsEmpty then
          match seg.AddField o.SegAddField field with
          | (some err, seg) => (some err, { this with memorySegment := some seg })
          | (none, seg) =>
            let this := { this with memorySegment := some seg }
            (this.storeStruct o.WriteToJson, this)
        else
          match o.Serialization with
          | some err => (some err, this)
          | none =>
            let this := (this.sealSegment seg).newMemorySegment
            (this.storeStruct o.WriteToJson, this)

/-- The statement `delete(this.Fields, fieldname)`. -/
def Index.withoutField (this : Index) (fieldname : String) : Index :=
  { this with Fields := this.Fields.filter (fun kv => kv.1 != fieldname) }

/-- Method `DeleteField(fieldname)`. The result `none` is the nil dereference of
`this.memorySegment.DeleteField(fieldname)` on the branch `this.memorySegment == nil`. -/
def Index.DeleteField (this : Index) (o : Outcomes) (fieldname : String) :
    Option (Error × Index) :=
  if (this.Fields.lookup fieldname).isNone then some (none, this)
  else if fieldname = this.PrimaryKey then some (none, this)
  else
    match this.memorySegment with
    | none => none
    | some seg =>
      if seg.IsEmpty then
        let this := { this with memorySegment := some (seg.DeleteField fieldname) }
        let this := this.withoutField fieldname
        some (this.storeStruct o.WriteToJson, this)
      else
        let this := this.withoutField fieldname
        match o.Serialization with
        | some err => some (some err, this)
        | none =>
          let this := (this.sealSegment seg).newMemorySegment
          some (this.storeStruct o.WriteToJson, this)

/-- Method `updatePrimaryKey(key, docid)`. -/
def Index.updatePrimaryKey (this : Index) (o : Outcomes) (key : String) (docid : Nat) :
    Error × Index :=
  match this.primary.Set o.Set this.PrimaryKey key docid with
  | (some err, db) => (some err, { this with primary := db })
  | (none, db) => (none, { this with primary := db })

/-- The statements of `UpdateDocument` from `docid := this.MaxDocId` on; `seg` is the
mutable segment `this.memorySegment`, which is not nil at that point. -/
def Index.assignAndWrite (this : Index) (o : Outcomes) (seg : Segment) (content : Content) :
    Error × Index :=
  let docid := this.MaxDocId
  let this := { this with MaxDocId := (this.MaxDocId + 1) % 2 ^ 32 }
  if this.PrimaryKey = DEFAULT_PRIMARY_KEY then
    match this.primary.Set o.Set DEFAULT_PRIMARY_KEY o.uuid docid with
    | (some err, db) =>
      (some err, { this with primary := db, MaxDocId := (this.MaxDocId + 2 ^ 32 - 1) % 2 ^ 32 })
    | (none, db) =>
      match seg.AddDocument o.AddDocument docid content with
      | (err, seg) => (err, { this with primary := db, memorySegment := some seg })
  else if (content.lookup this.PrimaryKey).isNone then
    (some "No Primary Key", { this with MaxDocId := (this.MaxDocId + 2 ^ 32 - 1) % 2 ^ 32 })
  else
    match this.updatePrimaryKey o ((content.lookup this.PrimaryKey).getD "") docid with
    | (some err, this) =>
      (some err, { this with MaxDocId := (this.MaxDocId + 2 ^ 32 - 1) % 2 ^ 32 })
    | (none, this) =>
      match seg.AddDocument o.AddDocument docid content with
      | (err, seg) => (err, { this with memorySegment := some seg })

/-- Method `UpdateDocument(content)`. -/
def Index.UpdateDocument (this : Index) (o : Outcomes) (content : Content) : Error × Index :=
  if this.Fields.length = 0 then (some "no field or segment is nil", this)
  else
    match this.memorySegment with
    | some seg => this.assignAndWrite o seg content
    | none =>
      let seg := this.freshSegment
      let this := this.newMemorySegment
      match this.storeStruct o.WriteToJson with
      | some err => (some err, this)
      | none => this.assignAndWrite o seg content

/-- Method `findPrimaryKey(key)`; the result `none` is the nil dereference of
`this.memorySegment.StartDocId`. -/
def Index.findPrimaryKey (this : Index) (key : String) : Option (DocIdNode × Bool) :=
  match this.primary.Search this.PrimaryKey key with
  | (ok, val) =>
    if !ok then some ({ Docid := 0, Weight := 0 }, false)
    else
      match this.memorySegment with
      | none => none
      | some seg =>
        if val ≥ seg.StartDocId then some ({ Docid := 0, Weight := 0 }, false)
        else some ({ Docid := val % 2 ^ 32, Weight := 0 }, true)

/-- Method `SyncMemorySegment()`. -/
def Index.SyncMemorySegment (this : Index) (o : Outcomes) : Error × Index :=
  match this.memorySegment with
  | none => (none, this)
  | some seg =>
    match o.Serialization with
    | some err => (some err, this)
    | none =>
      let segmentname := seg.SegmentName
      let this := { this with memorySegment := none }
      let newSegment := NewSegmentWithLocalFile seg
      let this := { this with
        segments := this.segments ++ [newSegment]
        SegmentNames := this.SegmentNames ++ [segmentname] }
      (this.storeStruct o.WriteToJson, this)

/-- The expression `sg.MaxDocId - sg.StartDocId` on `uint32`. -/
def Segment.docLen (sg : Segment) : Nat := (sg.MaxDocId + 2 ^ 32 - sg.StartDocId) % 2 ^ 32

/-- The first loop of `MergeSegments`: the least index of a segment with fewer than
`1000000` docids, `none` standing for `startIdx == -1`. -/
def findStartIdx : List Segment → Option Nat
  | [] => none
  | sg :: rest =>
    if sg.docLen < 1000000 then some 0
    else
      match findStartIdx rest with
      | some idx => some (idx + 1)
      | none => none

/-- Method `MergeSegments()`. The result `none` is the index-out-of-range panic of
`mergeSegments[0]`. The slice `this.SegmentNames[:startIdx]` is the first `startIdx` names
(`SegmentNames` being at least that long). -/
def Index.MergeSegments (this : Index) (o : Outcomes) : Option (Error × Index) :=
  match findStartIdx this.segments with
  | none => some (none, this)
  | some startIdx =>
    let mergeSegments := this.segments.drop startIdx
    match mergeSegments with
    | [] => none
    | first :: _ =>
      let segmentname := this.newSegmentName
      let tmpSegment := NewEmptySegmentWithFieldsInfo segmentname first.StartDocId this.nonPKFields
      let this := { this with PrefixSegment := (this.PrefixSegment + 1) % 2 ^ 64 }
      match this.storeStruct o.WriteToJson with
      | some err => some (some err, this)
      | none =>
        let tmpSegment := NewSegmentWithLocalFile (tmpSegment.MergeSegments mergeSegments)
        let this :=
          if startIdx > 0 then
            { this with
              segments := this.segments.take startIdx
              SegmentNames := this.SegmentNames.take startIdx }
          else { this with segments := [], SegmentNames := [] }
        let this := { this with
          segments := this.segments ++ [tmpSegment]
          SegmentNames := this.SegmentNames ++ [segmentname] }
        some (this.storeStruct o.WriteToJson2, this)

/-- Method `GetFields()`. -/
def Index.GetFields (this : Index) : List String := this.fieldnames

/-- The loop of `GetDocument` over the sealed roster. -/
def getDocumentLoop (docid : Nat) : List Segment → Option Content × Bool
  | [] => (none, false)
  | segment :: rest =>
    if docid ≥ segment.StartDocId ∧ docid < segment.MaxDocId then segment.GetDocument docid
    else getDocumentLoop docid rest

/-- Method `GetDocument(docid)`. -/
def Index.GetDocument (this : Index) (docid : Nat) : Option Content × Bool :=
  getDocumentLoop docid this.segments

/-- Method `GetFieldType(fieldname)`. -/
def Index.GetFieldType (this : Index) (fieldname : String) : Nat × Bool :=
  match this.Fields.lookup fieldname with
  | none => (0, false)
  | some f => (f.FieldType, true)

/-! ## Search -/

/-- Modelled from the spec: the collaborators of `SearchDocIds`, which are not among the
sources: the per-segment search `Segment.SearchDocIds(query, filters, bitmap, acc)`, which
returns the accumulator with its matches appended, the weight routine
`utils.ComputeWeight(acc, len(acc), max_docid)` and the intersection
`utils.InteractionWithStartAndDf(acc, sub, 0, len(sub), max_docid)`. A buffer received
from the pool `utils.GetDocIDsChan` is empty. -/
structure SearchEnv where
  SegSearchDocIds :
    Segment → FSSearchQuery → List FSSearchFilted → Bitmap → List DocIdNode → List DocIdNode
  ComputeWeight : List DocIdNode → Nat → Nat → List DocIdNode
  InteractionWithStartAndDf :
    List DocIdNode → List DocIdNode → Nat → Nat → Nat → List DocIdNode × Bool

/-- The loop `for _, segment := range this.segments { docids, _ =
segment.SearchDocIds(query, filteds, this.bitmap, docids) }`. -/
def Index.searchSegments (this : Index) (env : SearchEnv) (query : FSSearchQuery)
    (filteds : List FSSearchFilted) (docids : List DocIdNode) : List DocIdNode :=
  this.segments.foldl (fun acc segment => env.SegSearchDocIds segment query filteds this.bitmap acc)
    docids

/-- The loop `for _, query := range querys[1:]` of `SearchDocIds`. -/
def Index.searchRest (this : Index) (env : SearchEnv) (filteds : List FSSearchFilted) :
    List FSSearchQuery → List DocIdNode → Option (List DocIdNode) × Bool
  | [], docids => (some docids, true)
  | query :: rest, docids =>
    let subdocids := this.searchSegments env query filteds []
    match env.InteractionWithStartAndDf docids subdocids 0 subdocids.length this.MaxDocId with
    | (docids, ok) =>
      if !ok then (none, false)
      else this.searchRest env filteds rest docids

/-- Method `SearchDocIds(querys, filteds)`. The result `none` is the slice-bounds panic of
`querys[1:]` on a slice of length 0. -/
def Index.SearchDocIds (this : Index) (env : SearchEnv) (querys : List FSSearchQuery)
    (filteds : List FSSearchFilted) : Option (Option (List DocIdNode) × Bool) :=
  let docids : List DocIdNode := []
  let docids :=
    match querys with
    | query0 :: _ =>
      let docids := this.searchSegments env query0 filteds docids
      env.ComputeWeight docids docids.length this.MaxDocId
    | [] => docids
  if querys.length = 1 then some (some docids, true)
  else
    match querys with
    | [] => none
    | _ :: rest => some (this.searchRest env filteds rest docids)

/-! ## Gather -/

/-- A call of one of the mutating operations of the index. -/
inductive Op where
  | AddField (field : SimpleFieldInfo)
  | DeleteField (fieldname : String)
  | UpdateDocument (content : Content)
  | SyncMemorySegment
  | MergeSegments
deriving DecidableEq, Repr

/-- One call on the index, with the results of its collaborator calls; `none` when the
call panics. -/
def Index.call (this : Index) (o : Outcomes) : Op → Option (Error × Index)
  | .AddField field => some (this.AddField o field)
  | .DeleteField fieldname => this.DeleteField o fieldname
  | .UpdateDocument content => some (this.UpdateDocument o content)
  | .SyncMemorySegment => some (this.SyncMemorySegment o)
  | .MergeSegments => this.MergeSegments o

/-- The state after a sequence of calls, each returning normally (with or without an
error); `none` when one of them panics. -/
def Index.run (this : Index) : List (Outcomes × Op) → Option Index
  | [] => some this
  | (o, op) :: rest =>
    match this.call o op with
    | none => none
    | some (_, next) => next.run rest

/-- A call of `AddField` or `DeleteField`. -/
def Op.isSchema : Op → Bool
  | .AddField _ => true
  | .DeleteField _ => true
  | _ => false

/-- The index after the block `if this.memorySegment == nil { ... }` of `UpdateDocument`. -/
def Index.prepared (this : Index) : Index :=
  match this.memorySegment with
  | some _ => this
  | none => this.newMemorySegment

/-- The mutable segment that receives the document of a call of `UpdateDocument`: the
current one, or the one the call creates. -/
def Index.writeSegment (this : Index) : Segment :=
  match this.memorySegment with
  | some seg => seg
  | none => this.freshSegment

/-! ## The scenarios of the specification (section 8) -/

/-- The field `{name: "pk", type: PK}`. -/
def fieldPk : SimpleFieldInfo := { FieldName := "pk", FieldType := IDX_TYPE_PK }

/-- The field `{name: "body", type: STRING_TOKENIZED}`. -/
def fieldBody : SimpleFieldInfo := { FieldName := "body", FieldType := IDX_TYPE_STRING_SEG }

/-- The field `{name: "tag", type: STRING_EXACT}`. -/
def fieldTag : SimpleFieldInfo := { FieldName := "tag", FieldType := 1 }

/-- Scenario S1 before the write: an empty index, then `AddField(pk)`, `AddField(body)`. -/
def scenarioSchema : Index :=
  (((NewEmptyIndex "idx" "/data/").AddField Outcomes.ok fieldPk).2.AddField Outcomes.ok
    fieldBody).2

/-- The document `{pk: "a", body: "hello world"}` of scenario S1. -/
def docA : Content := [("pk", "a"), ("body", "hello world")]

/-- The document `{pk: "a", body: "hello again"}` of scenario S4. -/
def docA2 : Content := [("pk", "a"), ("body", "hello again")]

/-- Scenario S1: `scenarioSchema` after `UpdateDocument({pk: "a", body: "hello world"})`. -/
def scenarioS1 : Index := (scenarioSchema.UpdateDocument Outcomes.ok docA).2

/-- The collaborator results in which only `Segment.AddDocument` fails. -/
def Outcomes.addDocumentFails : Outcomes :=
  { Outcomes.ok with AddDocument := some "add document failed" }

/-- The document `{pk: "b", body: "hello rust"}` of scenario S2. -/
def docB : Content := [("pk", "b"), ("body", "hello rust")]

/-- The collaborator results in which only the final meta persistence of `MergeSegments`
fails. -/
def Outcomes.finalStoreFails : Outcomes :=
  { Outcomes.ok with WriteToJson2 := some "write meta failed" }

/-- The collaborator results in which the (first) meta persistence fails. -/
def Outcomes.storeFails : Outcomes :=
  { Outcomes.ok with WriteToJson := some "write meta failed" }

/-! ## Properties of the roster -/

/-- The roster `[S0, ..., Sk, M]`: the sealed segments followed by the mutable segment, when
there is one. -/
def Index.roster (this : Index) : List Segment :=
  this.segments ++ this.memorySegment.toList

/-- Each segment of the list ends where the next one starts. -/
def contiguousList : List Segment → Bool
  | a :: b :: rest => a.MaxDocId == b.StartDocId && contiguousList (b :: rest)
  | _ => true

/-- Contiguity of the roster: each segment ends where the next one starts. -/
def Index.contiguous (this : Index) : Bool := contiguousList this.roster

/-- The docid range `(StartDocId, MaxDocId)` of a segment. -/
def Segment.range (seg : Segment) : Nat × Nat := (seg.StartDocId, seg.MaxDocId)

/-- A run from the empty index: one field, one successful write, one write in which
`Segment.AddDocument` fails, then a second field. -/
def gapRun : List (Outcomes × Op) :=
  [(Outcomes.ok, Op.AddField fieldBody),
   (Outcomes.ok, Op.UpdateDocument [("body", "hello world")]),
   (Outcomes.addDocumentFails, Op.UpdateDocument [("body", "hello rust")]),
   (Outcomes.ok, Op.AddField fieldTag)]

/-- A run from the empty index that ends with no mutable segment: one field, then a
flush. -/
def flushedRun : List (Outcomes × Op) :=
  [(Outcomes.ok, Op.AddField fieldBody), (Outcomes.ok, Op.SyncMemorySegment)]

/-- A run from the empty index that ends with one sealed segment holding one document. -/
def oneSealedRun : List (Outcomes × Op) :=
  [(Outcomes.ok, Op.AddField fieldBody),
   (Outcomes.ok, Op.UpdateDocument [("body", "hello world")]),
   (Outcomes.ok, Op.SyncMemorySegment)]

/-- The state at the end of `oneSealedRun`. -/
def oneSealed : Index :=
  (((NewEmptyIndex "idx" "/data/").AddField Outcomes.ok fieldBody).2.UpdateDocument Outcomes.ok
    [("body", "hello world")]).2.SyncMemorySegment Outcomes.ok |>.2

/-! ## Properties of the schema -/

/-- The entries of the field map whose type is `PRIMARY_KEY`. -/
def Index.pkEntries (this : Index) : List (String × SimpleFieldInfo) :=
  this.Fields.filter (fun kv => kv.2.FieldType == IDX_TYPE_PK)

/-- A call of `AddField` with a field of type `PRIMARY_KEY`. -/
def Op.addsPK : Op → Bool
  | .AddField field => field.FieldType == IDX_TYPE_PK
  | _ => false

/-- The number of calls of `AddField` with a field of type `PRIMARY_KEY` in a run. -/
def countAddsPK (calls : List (Outcomes × Op)) : Nat :=
  (calls.filter (fun c => c.2.addsPK)).length

/-- A second field of type `PRIMARY_KEY`. -/
def fieldPk2 : SimpleFieldInfo := { FieldName := "pk2", FieldType := IDX_TYPE_PK }

/-- A run from the empty index that declares two fields of type `PRIMARY_KEY`. -/
def twoPkRun : List (Outcomes × Op) :=
  [(Outcomes.ok, Op.AddField fieldPk), (Outcomes.ok, Op.AddField fieldPk2)]

/-- The run from the empty index that ends in `scenarioSchema`: it declares one field of
type `PRIMARY_KEY` and one other field. -/
def onePkRun : List (Outcomes × Op) :=
  [(Outcomes.ok, Op.AddField fieldPk), (Outcomes.ok, Op.AddField fieldBody)]

/-- A run from the empty index that adds the fields `body` and `tag`. -/
def twoFieldsRun : List (Outcomes × Op) :=
  [(Outcomes.ok, Op.AddField fieldBody), (Outcomes.ok, Op.AddField fieldTag)]

/-- The state at the end of `twoFieldsRun`. -/
def beforeDelete : Index :=
  (((NewEmptyIndex "idx" "/data/").AddField Outcomes.ok fieldBody).2.AddField Outcomes.ok
    fieldTag).2

/-- The invariant behind C9: at most `k` entries of type `PRIMARY_KEY`, and when `k ≤ 1`
each of them is stored under the name `PrimaryKey`. -/
def pkInv (s : Index) (k : Nat) : Prop :=
  s.pkEntries.length ≤ k ∧ (k ≤ 1 → ∀ kv ∈ s.pkEntries, kv.1 = s.PrimaryKey)

/-! ## Docid ranges of the roster -/

/-- Consecutive docid ranges: each one ends where the next one starts. -/
def linked (l : List (Nat × Nat)) : Prop :=
  List.Chain' (fun a b : Nat × Nat => a.2 = b.1) l

/-- The last range of the list, when there is one, ends at `m`. -/
def endsAt (l : List (Nat × Nat)) (m : Nat) : Prop :=
  ∀ x ∈ l.getLast?, x.2 = m

/-- The docid ranges of the roster, in roster order. -/
def Index.ranges (this : Index) : List (Nat × Nat) := this.roster.map Segment.range

/-- How one call changes the ranges of the roster and `MaxDocId`: not at all; a fresh
segment starting and ending at `MaxDocId` is appended; the last segment is extended to the
advanced `MaxDocId`; a fresh segment is appended and extended; a non-empty run of
consecutive segments is replaced by one segment spanning it. -/
def rangeStep (l : List (Nat × Nat)) (m : Nat) (l' : List (Nat × Nat)) (m' : Nat) : Prop :=
  (l' = l ∧ m' = m)
  ∨ (l' = l ++ [(m, m)] ∧ m' = m)
  ∨ (∃ init a b, l = init ++ [(a, b)] ∧ l' = init ++ [(a, (m + 1) % 2 ^ 32)] ∧
      m' = (m + 1) % 2 ^ 32)
  ∨ (l' = l ++ [(m, (m + 1) % 2 ^ 32)] ∧ m' = (m + 1) % 2 ^ 32)
  ∨ (∃ pre x mid post, l = pre ++ (x :: mid) ++ post ∧
      l' = pre ++ [(x.1, ((x :: mid).getLast (List.cons_ne_nil _ _)).2)] ++ post ∧ m' = m)

/-- Every range of the list starts at or before its end. -/
def ordered (l : List (Nat × Nat)) : Prop := ∀ x ∈ l, x.1 ≤ x.2

/-- The invariant of the roster after `k` calls: the ranges are linked, the last one ends at
`MaxDocId`, `MaxDocId` is a `uint32`, and as long as fewer than `2^32` calls were made no
range is reversed and `MaxDocId` is at most the number of calls. -/
def rosterInv (l : List (Nat × Nat)) (m k : Nat) : Prop :=
  linked l ∧ endsAt l m ∧ m < 2 ^ 32 ∧ (k < 2 ^ 32 → ordered l ∧ m ≤ k)

/-! ## Further scenarios and the name list of the roster -/

/-- Scenario S2: scenario S1 after `UpdateDocument({pk: "b", body: "hello rust"})`. -/
def scenarioS2 : Index := (scenarioS1.UpdateDocument Outcomes.ok docB).2

/-- A field of type `PRIMARY_KEY` whose name is the reserved default name. -/
def fieldDefaultPk : SimpleFieldInfo :=
  { FieldName := DEFAULT_PRIMARY_KEY, FieldType := IDX_TYPE_PK }

/-- The index after `AddField(fieldDefaultPk)` and `AddField(body)` on the empty index. -/
def defaultNamedPkSchema : Index :=
  (((NewEmptyIndex "idx" "/data/").AddField Outcomes.ok fieldDefaultPk).2.AddField Outcomes.ok
    fieldBody).2

/-- A sealed segment of exactly `1000000` docids. -/
def bigSegment : Segment :=
  { SegmentName := "/data/idx_999", StartDocId := 0, MaxDocId := 1000000, fields := [],
    docs := [] }

/-- An index whose only sealed segment is `bigSegment`. -/
def bigIndex : Index :=
  { NewEmptyIndex "idx" "/data/" with
    MaxDocId := 1000000, segments := [bigSegment], SegmentNames := ["/data/idx_999"] }

/-- A sealed segment of one docid that follows `bigSegment`. -/
def smallSegment : Segment :=
  { SegmentName := "/data/idx_1000", StartDocId := 1000000, MaxDocId := 1000001, fields := [],
    docs := [(1000000, [("body", "hello world")])] }

/-- An index whose sealed roster is `bigSegment` followed by `smallSegment`. -/
def bigSmallIndex : Index :=
  { NewEmptyIndex "idx" "/data/" with
    MaxDocId := 1000001, PrefixSegment := 1001, segments := [bigSegment, smallSegment],
    SegmentNames := ["/data/idx_999", "/data/idx_1000"] }

/-- The index state after a successful `MergeSegments` on `bigSmallIndex`. -/
def bigSmallMerged : Index :=
  ((bigSmallIndex.MergeSegments Outcomes.ok).map (fun r => r.2)).getD bigSmallIndex

/-- A run from the empty index in which a sealing `AddField`, a flush and a merge each
return a meta persistence error. -/
def failingRun : List (Outcomes × Op) :=
  [(Outcomes.ok, Op.AddField fieldBody),
   (Outcomes.ok, Op.UpdateDocument [("body", "hello world")]),
   (Outcomes.storeFails, Op.AddField fieldTag),
   (Outcomes.ok, Op.UpdateDocument [("body", "hello rust")]),
   (Outcomes.storeFails, Op.SyncMemorySegment),
   (Outcomes.ok, Op.UpdateDocument [("body", "hello again")]),
   (Outcomes.finalStoreFails, Op.MergeSegments)]

/-- The state at the end of `failingRun`. -/
def failingRunEnd : Index :=
  ((NewEmptyIndex "idx" "/data/").run failingRun).getD (NewEmptyIndex "idx" "/data/")

/-- The list `SegmentNames` names the sealed roster, segment by segment. -/
def Index.namesRoster (this : Index) : Prop :=
  this.SegmentNames = this.segments.map (fun seg => seg.SegmentName)

/-! ## The collaborators of search, and reading a gather result -/

/-- Modelled from the spec: text analysis of a tokenized field value, performed inside
segments and not among the sources: the words of the value, split at blanks. -/
def splitWords : List Char → List (List Char)
  | [] => [[]]
  | c :: cs =>
    match splitWords cs with
    | [] => [[c]]
    | w :: ws => if c = ' ' then [] :: w :: ws else (c :: w) :: ws

/-- Modelled from the spec: a document matches a query `{ field_name, value }` when the
value it has for the queried field holds the queried term as a word. -/
def queryMatches (query : FSSearchQuery) (content : Content) : Bool :=
  match content.lookup query.FieldName with
  | some value => (splitWords value.toList).contains query.Value.toList
  | none => false

/-- Modelled from the spec: `search_docids(query, filters, bitmap, accumulator) →
accumulator` of the `Segment` contract: the accumulator with the docids of the segment's
documents appended that match the query, pass every filter and are not deleted in the
bitmap. The filter test `passes` is a parameter. -/
def Segment.SearchDocIds (passes : FSSearchFilted → Content → Bool) (seg : Segment)
    (query : FSSearchQuery) (filteds : List FSSearchFilted) (bitmap : Bitmap)
    (docids : List DocIdNode) : List DocIdNode :=
  docids ++
    (seg.docs.filter (fun d =>
      queryMatches query d.2 && filteds.all (fun f => passes f d.2) &&
        !bitmap.contains d.1)).map (fun d => { Docid := d.1, Weight := 0 })

/-- Modelled from the spec: `utils.ComputeWeight(acc, len(acc), max_docid)` assigns every
node a weight that is a function `weight` of the docid frequency and the corpus size; the
docids and their order are kept. -/
def ComputeWeight (weight : Nat → Nat → Nat) (docids : List DocIdNode) (df maxDocId : Nat) :
    List DocIdNode :=
  docids.map (fun node => { node with Weight := weight df maxDocId })

/-- Modelled from the spec: `utils.InteractionWithStartAndDf(acc, sub, start, df,
max_docid)` keeps the nodes of `acc`, in order and with their weights, whose docid is in
`sub` from `start` on, and reports whether any is left. -/
def InteractionWithStartAndDf (docids subdocids : List DocIdNode) (start _df _maxDocId : Nat) :
    List DocIdNode × Bool :=
  let kept := docids.filter (fun node =>
    ((subdocids.drop start).map (fun sub => sub.Docid)).contains node.Docid)
  (kept, !kept.isEmpty)

/-- Modelled from the spec: the collaborators of `SearchDocIds` as the specification
describes them. -/
def specSearchEnv (passes : FSSearchFilted → Content → Bool) (weight : Nat → Nat → Nat) :
    SearchEnv :=
  { SegSearchDocIds := Segment.SearchDocIds passes
    ComputeWeight := ComputeWeight weight
    InteractionWithStartAndDf := InteractionWithStartAndDf }

/-- The collaborators of the scenarios: every filter passes, the weight is the corpus size
divided by the docid frequency. -/
def scenarioSearchEnv : SearchEnv :=
  specSearchEnv (fun _ _ => true) (fun df maxDocId => maxDocId / df)

/-- The query `{body, "hello"}` of scenario S2. -/
def queryHello : FSSearchQuery := { FieldName := "body", Value := "hello", QueryType := 0 }

/-- The query `{body, "rust"}` of scenario S3. -/
def queryRust : FSSearchQuery := { FieldName := "body", Value := "rust", QueryType := 0 }

/-- The docids of a search result. -/
def resultDocids (r : Option (Option (List DocIdNode) × Bool)) :
    Option (Option (List Nat) × Bool) :=
  r.map (fun res => (res.1.map (fun nodes => nodes.map (fun node => node.Docid)), res.2))

theorem storeStruct_eq (this : Index) (res : Error) : this.storeStruct res = res := by
  cases res <;> rfl

theorem AddDocument_fst (seg : Segment) (res : Error) (docid : Nat) (content : Content) :
    (seg.AddDocument res docid content).1 = res := by
  cases res <;> rfl

theorem AddDocument_ok (seg : Segment) (docid : Nat) (content : Content) :
    (seg.AddDocument none docid content).2 =
      { seg with MaxDocId := (docid + 1) % 2 ^ 32, docs := seg.docs ++ [(docid, content)] } :=
  rfl

theorem AddDocument_err (seg : Segment) (err : String) (docid : Nat) (content : Content) :
    (seg.AddDocument (some err) docid content).2 = seg :=
  rfl

theorem Set_err (db : BTreedb) (err : String) (btname key : String) (value : Nat) :
    db.Set (some err) btname key value = (some err, db) := rfl

theorem Search_Set (db : BTreedb) (btname key : String) (value : Nat) :
    (db.Set none btname key value).2.Search btname key = (true, value) := by
  simp [BTreedb.Set, BTreedb.Search, List.lookup_cons]

/-! ## `UpdateDocument`, case by case -/

theorem assignAndWrite_default_err (this : Index) (o : Outcomes) (seg : Segment)
    (content : Content) (err : String) (hpk : this.PrimaryKey = DEFAULT_PRIMARY_KEY)
    (hs : o.Set = some err) :
    this.assignAndWrite o seg content =
      (some err, { this with MaxDocId := ((this.MaxDocId + 1) % 2 ^ 32 + 2 ^ 32 - 1) % 2 ^ 32 }) := by
  simp only [Index.assignAndWrite, hpk, hs, Set_err, if_true]

theorem assignAndWrite_default_ok (this : Index) (o : Outcomes) (seg : Segment)
    (content : Content) (hpk : this.PrimaryKey = DEFAULT_PRIMARY_KEY)
    (hs : o.Set = none) :
    this.assignAndWrite o seg content =
      (o.AddDocument,
        { this with
          MaxDocId := (this.MaxDocId + 1) % 2 ^ 32
          primary := (this.primary.Set none DEFAULT_PRIMARY_KEY o.uuid this.MaxDocId).2
          memorySegment := some (seg.AddDocument o.AddDocument this.MaxDocId content).2 }) := by
  simp only [Index.assignAndWrite, hpk, hs, if_true]
  cases o.AddDocument <;> rfl

theorem assignAndWrite_missing (this : Index) (o : Outcomes) (seg : Segment)
    (content : Content) (hpk : this.PrimaryKey ≠ DEFAULT_PRIMARY_KEY)
    (hl : content.lookup this.PrimaryKey = none) :
    this.assignAndWrite o seg content =
      (some "No Primary Key",
        { this with MaxDocId := ((this.MaxDocId + 1) % 2 ^ 32 + 2 ^ 32 - 1) % 2 ^ 32 }) := by
  simp only [Index.assignAndWrite, hpk, hl, if_true, if_false, Option.isNone_none]

theorem assignAndWrite_pk_err (this : Index) (o : Outcomes) (seg : Segment)
    (content : Content) (v err : String) (hpk : this.PrimaryKey ≠ DEFAULT_PRIMARY_KEY)
    (hl : content.lookup this.PrimaryKey = some v) (hs : o.Set = some err) :
    this.assignAndWrite o seg content =
      (some err, { this with MaxDocId := ((this.MaxDocId + 1) % 2 ^ 32 + 2 ^ 32 - 1) % 2 ^ 32 }) := by
  simp only [Index.assignAndWrite, Index.updatePrimaryKey, hpk, hl, hs, Set_err, if_false,
    Option.isNone_some, Bool.false_eq_true]

theorem assignAndWrite_pk_ok (this : Index) (o : Outcomes) (seg : Segment)
    (content : Content) (v : String) (hpk : this.PrimaryKey ≠ DEFAULT_PRIMARY_KEY)
    (hl : content.lookup this.PrimaryKey = some v) (hs : o.Set = none) :
    this.assignAndWrite o seg content =
      (o.AddDocument,
        { this with
          MaxDocId := (this.MaxDocId + 1) % 2 ^ 32
          primary := (this.primary.Set none this.PrimaryKey v this.MaxDocId).2
          memorySegment := some (seg.AddDocument o.AddDocument this.MaxDocId content).2 }) := by
  simp only [Index.assignAndWrite, Index.updatePrimaryKey, hpk, hl, hs, if_false,
    Option.isNone_some, Bool.false_eq_true, Option.getD_some]
  cases o.AddDocument <;> rfl

/-- The two ways `assignAndWrite` ends: rolled back before the document is handed to the
segment, or with the result of `AddDocument` and the counter advanced. -/
theorem assignAndWrite_cases (this : Index) (o : Outcomes) (seg : Segment) (content : Content) :
    (∃ err, this.assignAndWrite o seg content =
      (some err, { this with MaxDocId := ((this.MaxDocId + 1) % 2 ^ 32 + 2 ^ 32 - 1) % 2 ^ 32 }))
    ∨ (∃ db, this.assignAndWrite o seg content =
      (o.AddDocument,
        { this with
          MaxDocId := (this.MaxDocId + 1) % 2 ^ 32
          primary := db
          memorySegment := some (seg.AddDocument o.AddDocument this.MaxDocId content).2 })) := by
  by_cases hpk : this.PrimaryKey = DEFAULT_PRIMARY_KEY
  · cases hs : o.Set with
    | some err => exact Or.inl ⟨err, assignAndWrite_default_err this o seg content err hpk hs⟩
    | none => exact Or.inr ⟨_, assignAndWrite_default_ok this o seg content hpk hs⟩
  · cases hl : content.lookup this.PrimaryKey with
    | none => exact Or.inl ⟨_, assignAndWrite_missing this o seg content hpk hl⟩
    | some v =>
      cases hs : o.Set with
      | some err => exact Or.inl ⟨err, assignAndWrite_pk_err this o seg content v err hpk hl hs⟩
      | none => exact Or.inr ⟨_, assignAndWrite_pk_ok this o seg content v hpk hl hs⟩

theorem UpdateDocument_noFields (this : Index) (o : Outcomes) (content : Content)
    (h : this.Fields.length = 0) :
    this.UpdateDocument o content = (some "no field or segment is nil", this) := by
  simp [Index.UpdateDocument, h]

theorem UpdateDocument_mem (this : Index) (o : Outcomes) (content : Content) (seg : Segment)
    (h : this.Fields.length ≠ 0) (hm : this.memorySegment = some seg) :
    this.UpdateDocument o content = this.assignAndWrite o seg content := by
  simp [Index.UpdateDocument, h, hm]

theorem UpdateDocument_nil_err (this : Index) (o : Outcomes) (content : Content) (err : String)
    (h : this.Fields.length ≠ 0) (hm : this.memorySegment = none)
    (hw : o.WriteToJson = some err) :
    this.UpdateDocument o content = (some err, this.newMemorySegment) := by
  simp [Index.UpdateDocument, h, hm, hw, storeStruct_eq]

theorem UpdateDocument_nil_ok (this : Index) (o : Outcomes) (content : Content)
    (h : this.Fields.length ≠ 0) (hm : this.memorySegment = none)
    (hw : o.WriteToJson = none) :
    this.UpdateDocument o content =
      this.newMemorySegment.assignAndWrite o this.freshSegment content := by
  simp [Index.UpdateDocument, h, hm, hw, storeStruct_eq]

theorem writeSegment_some (this : Index) (seg : Segment) (hm : this.memorySegment = some seg) :
    this.writeSegment = seg := by
  simp [Index.writeSegment, hm]

theorem writeSegment_none (this : Index) (hm : this.memorySegment = none) :
    this.writeSegment = this.freshSegment := by
  simp [Index.writeSegment, hm]

theorem prepared_some (this : Index) (seg : Segment) (hm : this.memorySegment = some seg) :
    this.prepared = this := by
  simp [Index.prepared, hm]

theorem prepared_none (this : Index) (hm : this.memorySegment = none) :
    this.prepared = this.newMemorySegment := by
  simp [Index.prepared, hm]

theorem prepared_MaxDocId (this : Index) : this.prepared.MaxDocId = this.MaxDocId := by
  unfold Index.prepared
  split <;> rfl

theorem prepared_segments (this : Index) : this.prepared.segments = this.segments := by
  unfold Index.prepared
  split <;> rfl

theorem prepared_SegmentNames (this : Index) :
    this.prepared.SegmentNames = this.SegmentNames := by
  unfold Index.prepared
  split <;> rfl

theorem prepared_PrimaryKey (this : Index) : this.prepared.PrimaryKey = this.PrimaryKey := by
  unfold Index.prepared
  split <;> rfl

theorem prepared_primary (this : Index) : this.prepared.primary = this.primary := by
  unfold Index.prepared
  split <;> rfl

theorem prepared_bitmap (this : Index) : this.prepared.bitmap = this.bitmap := by
  unfold Index.prepared
  split <;> rfl

theorem prepared_Fields (this : Index) : this.prepared.Fields = this.Fields := by
  unfold Index.prepared
  split <;> rfl

theorem prepared_fieldnames (this : Index) : this.prepared.fieldnames = this.fieldnames := by
  unfold Index.prepared
  split <;> rfl

theorem prepared_memorySegment (this : Index) :
    this.prepared.memorySegment = some this.writeSegment := by
  unfold Index.prepared Index.writeSegment
  split
  · next seg h => simp [h]
  · rfl

/-- The four ways `UpdateDocument` ends: no field; meta persistence of the new mutable
segment failed; rolled back (primary-key `Set` failed or no primary-key value); the
document was handed to the mutable segment, the counter is advanced and the result is that
of `AddDocument`. -/
theorem UpdateDocument_cases (this : Index) (o : Outcomes) (content : Content) :
    this.UpdateDocument o content = (some "no field or segment is nil", this)
    ∨ (∃ err, this.UpdateDocument o content = (some err, this.prepared))
    ∨ (∃ err, this.UpdateDocument o content =
        (some err,
          { this.prepared with MaxDocId := ((this.MaxDocId + 1) % 2 ^ 32 + 2 ^ 32 - 1) % 2 ^ 32 }))
    ∨ (∃ db, this.UpdateDocument o content =
        (o.AddDocument,
          { this.prepared with
            MaxDocId := (this.MaxDocId + 1) % 2 ^ 32
            primary := db
            memorySegment :=
              some (this.writeSegment.AddDocument o.AddDocument this.MaxDocId content).2 })) := by
  by_cases hf : this.Fields.length = 0
  · exact Or.inl (UpdateDocument_noFields this o content hf)
  · cases hm : this.memorySegment with
    | some seg =>
      rw [UpdateDocument_mem this o content seg hf hm, prepared_some this seg hm,
        writeSegment_some this seg hm]
      rcases assignAndWrite_cases this o seg content with ⟨err, h⟩ | ⟨db, h⟩
      · exact Or.inr (Or.inr (Or.inl ⟨err, h⟩))
      · exact Or.inr (Or.inr (Or.inr ⟨db, h⟩))
    | none =>
      rw [prepared_none this hm, writeSegment_none this hm]
      cases hw : o.WriteToJson with
      | some err =>
        exact Or.inr (Or.inl ⟨err, UpdateDocument_nil_err this o content err hf hm hw⟩)
      | none =>
        rw [UpdateDocument_nil_ok this o content hf hm hw]
        rcases assignAndWrite_cases this.newMemorySegment o this.freshSegment content with
          ⟨err, h⟩ | ⟨db, h⟩
        · exact Or.inr (Or.inr (Or.inl ⟨err, h⟩))
        · exact Or.inr (Or.inr (Or.inr ⟨db, h⟩))

/-- A successful `UpdateDocument` hands the document to the mutable segment and advances
`MaxDocId`; the sealed roster is untouched. -/
theorem UpdateDocument_success (this : Index) (o : Outcomes) (content : Content)
    (hr : (this.UpdateDocument o content).1 = none) :
    (this.UpdateDocument o content).2.memorySegment =
        some { this.writeSegment with
          MaxDocId := (this.MaxDocId + 1) % 2 ^ 32
          docs := this.writeSegment.docs ++ [(this.MaxDocId, content)] }
      ∧ (this.UpdateDocument o content).2.MaxDocId = (this.MaxDocId + 1) % 2 ^ 32
      ∧ (this.UpdateDocument o content).2.segments = this.segments
      ∧ (this.UpdateDocument o content).2.SegmentNames = this.SegmentNames := by
  rcases UpdateDocument_cases this o content with h | ⟨err, h⟩ | ⟨err, h⟩ | ⟨db, h⟩
  · rw [h] at hr; exact absurd hr (by simp)
  · rw [h] at hr; exact absurd hr (by simp)
  · rw [h] at hr; exact absurd hr (by simp)
  · rw [h] at hr ⊢
    have ha : o.AddDocument = none := hr
    rw [ha]
    exact ⟨rfl, rfl, prepared_segments this, prepared_SegmentNames this⟩

theorem assignAndWrite_pk_success (this : Index) (o : Outcomes) (seg : Segment)
    (content : Content) (v : String) (hpk : this.PrimaryKey ≠ DEFAULT_PRIMARY_KEY)
    (hl : content.lookup this.PrimaryKey = some v)
    (hr : (this.assignAndWrite o seg content).1 = none) :
    (this.assignAndWrite o seg content).2.primary.Search this.PrimaryKey v
        = (true, this.MaxDocId)
      ∧ (this.assignAndWrite o seg content).2.PrimaryKey = this.PrimaryKey
      ∧ (this.assignAndWrite o seg content).2.bitmap = this.bitmap := by
  cases hs : o.Set with
  | some err =>
    rw [assignAndWrite_pk_err this o seg content v err hpk hl hs] at hr
    exact absurd hr (by simp)
  | none =>
    rw [assignAndWrite_pk_ok this o seg content v hpk hl hs]
    exact ⟨Search_Set _ _ _ _, rfl, rfl⟩

/-- A successful `UpdateDocument` on an index with a declared primary key installs the
mapping of the primary-key value to the assigned docid and leaves the bitmap alone. -/
theorem UpdateDocument_pk_success (this : Index) (o : Outcomes) (content : Content)
    (v : String) (hpk : this.PrimaryKey ≠ DEFAULT_PRIMARY_KEY)
    (hl : content.lookup this.PrimaryKey = some v)
    (hr : (this.UpdateDocument o content).1 = none) :
    (this.UpdateDocument o content).2.primary.Search this.PrimaryKey v = (true, this.MaxDocId)
      ∧ (this.UpdateDocument o content).2.PrimaryKey = this.PrimaryKey
      ∧ (this.UpdateDocument o content).2.bitmap = this.bitmap := by
  by_cases hf : this.Fields.length = 0
  · rw [UpdateDocument_noFields this o content hf] at hr
    exact absurd hr (by simp)
  · cases hm : this.memorySegment with
    | some seg =>
      rw [UpdateDocument_mem this o content seg hf hm] at hr ⊢
      exact assignAndWrite_pk_success this o seg content v hpk hl hr
    | none =>
      cases hw : o.WriteToJson with
      | some err =>
        rw [UpdateDocument_nil_err this o content err hf hm hw] at hr
        exact absurd hr (by simp)
      | none =>
        rw [UpdateDocument_nil_ok this o content hf hm hw] at hr ⊢
        exact assignAndWrite_pk_success this.newMemorySegment o this.freshSegment content v
          hpk hl hr

theorem getDocumentLoop_none (docid : Nat) (segs : List Segment)
    (h : ∀ seg ∈ segs, ¬ (seg.StartDocId ≤ docid ∧ docid < seg.MaxDocId)) :
    getDocumentLoop docid segs = (none, false) := by
  induction segs with
  | nil => rfl
  | cons seg rest ih =>
    have h1 := h seg (List.mem_cons_self _ _)
    simp only [getDocumentLoop, ge_iff_le, h1, if_false]
    exact ih (fun s hs => h s (List.mem_cons_of_mem _ hs))

theorem getDocumentLoop_append (docid : Nat) (segs : List Segment) (last : Segment)
    (h : ∀ seg ∈ segs, ¬ (seg.StartDocId ≤ docid ∧ docid < seg.MaxDocId))
    (hl : last.StartDocId ≤ docid ∧ docid < last.MaxDocId) :
    getDocumentLoop docid (segs ++ [last]) = last.GetDocument docid := by
  induction segs with
  | nil => simp [getDocumentLoop, hl]
  | cons seg rest ih =>
    have h1 := h seg (List.mem_cons_self _ _)
    simp only [List.cons_append, getDocumentLoop, ge_iff_le, h1, if_false]
    exact ih (fun s hs => h s (List.mem_cons_of_mem _ hs))

theorem SyncMemorySegment_nil (this : Index) (o : Outcomes) (hm : this.memorySegment = none) :
    this.SyncMemorySegment o = (none, this) := by
  simp [Index.SyncMemorySegment, hm]

theorem SyncMemorySegment_ser_err (this : Index) (o : Outcomes) (seg : Segment) (err : String)
    (hm : this.memorySegment = some seg) (hs : o.Serialization = some err) :
    this.SyncMemorySegment o = (some err, this) := by
  simp [Index.SyncMemorySegment, hm, hs]

theorem SyncMemorySegment_ser_ok (this : Index) (o : Outcomes) (seg : Segment)
    (hm : this.memorySegment = some seg) (hs : o.Serialization = none) :
    this.SyncMemorySegment o =
      (o.WriteToJson,
        { this with
          memorySegment := none
          segments := this.segments ++ [seg]
          SegmentNames := this.SegmentNames ++ [seg.SegmentName] }) := by
  simp [Index.SyncMemorySegment, hm, hs, storeStruct_eq, NewSegmentWithLocalFile]

theorem SyncMemorySegment_success (this : Index) (o : Outcomes) (seg : Segment)
    (hm : this.memorySegment = some seg) (hr : (this.SyncMemorySegment o).1 = none) :
    (this.SyncMemorySegment o).2 =
      { this with
        memorySegment := none
        segments := this.segments ++ [seg]
        SegmentNames := this.SegmentNames ++ [seg.SegmentName] } := by
  cases hs : o.Serialization with
  | some err =>
    rw [SyncMemorySegment_ser_err this o seg err hm hs] at hr
    exact absurd hr (by simp)
  | none => rw [SyncMemorySegment_ser_ok this o seg hm hs]

/-! ## `AddField` and `DeleteField`, case by case -/

theorem withField_memorySegment (this : Index) (field : SimpleFieldInfo) :
    (this.withField field).memorySegment = this.memorySegment := by
  unfold Index.withField
  split_ifs <;> rfl

theorem AddField_dup (this : Index) (o : Outcomes) (field : SimpleFieldInfo)
    (h : (this.Fields.lookup field.FieldName).isSome = true) :
    this.AddField o field = (none, this) := by
  simp [Index.AddField, h]

theorem AddField_pk (this : Index) (o : Outcomes) (field : SimpleFieldInfo)
    (h : (this.Fields.lookup field.FieldName).isSome = false)
    (hpk : field.FieldType = IDX_TYPE_PK) :
    this.AddField o field =
      (o.WriteToJson,
        { this.withField field with
          PrimaryKey := field.FieldName
          primary := (this.withField field).primary.AddBTree field.FieldName }) := by
  simp only [Index.AddField, h, hpk, if_true, storeStruct_eq, Bool.false_eq_true, if_false]

theorem AddField_nil (this : Index) (o : Outcomes) (field : SimpleFieldInfo)
    (h : (this.Fields.lookup field.FieldName).isSome = false)
    (hpk : field.FieldType ≠ IDX_TYPE_PK) (hm : this.memorySegment = none) :
    this.AddField o field = (o.WriteToJson, (this.withField field).newMemorySegment) := by
  simp only [Index.AddField, h, hpk, if_true, storeStruct_eq, Bool.false_eq_true, if_false,
    withField_memorySegment, hm]

theorem AddField_empty_err (this : Index) (o : Outcomes) (field : SimpleFieldInfo)
    (seg : Segment) (err : String)
    (h : (this.Fields.lookup field.FieldName).isSome = false)
    (hpk : field.FieldType ≠ IDX_TYPE_PK) (hm : this.memorySegment = some seg)
    (he : seg.IsEmpty = true) (ha : o.SegAddField = some err) :
    this.AddField o field =
      (some err, { this.withField field with memorySegment := some seg }) := by
  simp only [Index.AddField, h, hpk, if_true, storeStruct_eq, Bool.false_eq_true, if_false,
    withField_memorySegment, hm, he, ha, Segment.AddField]

theorem AddField_empty_ok (this : Index) (o : Outcomes) (field : SimpleFieldInfo)
    (seg : Segment)
    (h : (this.Fields.lookup field.FieldName).isSome = false)
    (hpk : field.FieldType ≠ IDX_TYPE_PK) (hm : this.memorySegment = some seg)
    (he : seg.IsEmpty = true) (ha : o.SegAddField = none) :
    this.AddField o field =
      (o.WriteToJson,
        { this.withField field with
          memorySegment := some { seg with fields := seg.fields ++ [field] } }) := by
  simp only [Index.AddField, h, hpk, if_true, storeStruct_eq, Bool.false_eq_true, if_false,
    withField_memorySegment, hm, he, ha, Segment.AddField]

theorem AddField_seal_err (this : Index) (o : Outcomes) (field : SimpleFieldInfo)
    (seg : Segment) (err : String)
    (h : (this.Fields.lookup field.FieldName).isSome = false)
    (hpk : field.FieldType ≠ IDX_TYPE_PK) (hm : this.memorySegment = some seg)
    (he : seg.IsEmpty = false) (hs : o.Serialization = some err) :
    this.AddField o field = (some err, this.withField field) := by
  simp only [Index.AddField, h, hpk, if_true, storeStruct_eq, Bool.false_eq_true, if_false,
    withField_memorySegment, hm, he, hs]

theorem AddField_seal_ok (this : Index) (o : Outcomes) (field : SimpleFieldInfo)
    (seg : Segment)
    (h : (this.Fields.lookup field.FieldName).isSome = false)
    (hpk : field.FieldType ≠ IDX_TYPE_PK) (hm : this.memorySegment = some seg)
    (he : seg.IsEmpty = false) (hs : o.Serialization = none) :
    this.AddField o field =
      (o.WriteToJson, ((this.withField field).sealSegment seg).newMemorySegment) := by
  simp only [Index.AddField, h, hpk, if_true, storeStruct_eq, Bool.false_eq_true, if_false,
    withField_memorySegment, hm, he, hs]

theorem DeleteField_unknown (this : Index) (o : Outcomes) (fieldname : String)
    (h : (this.Fields.lookup fieldname).isNone = true) :
    this.DeleteField o fieldname = some (none, this) := by
  simp only [Index.DeleteField, h, if_true]

theorem DeleteField_pk (this : Index) (o : Outcomes) (fieldname : String)
    (h : fieldname = this.PrimaryKey) :
    this.DeleteField o fieldname = some (none, this) := by
  unfold Index.DeleteField
  split_ifs <;> rfl

theorem DeleteField_nil (this : Index) (o : Outcomes) (fieldname : String)
    (h : (this.Fields.lookup fieldname).isNone = false) (hpk : fieldname ≠ this.PrimaryKey)
    (hm : this.memorySegment = none) :
    this.DeleteField o fieldname = none := by
  simp only [Index.DeleteField, h, hpk, hm, Bool.false_eq_true, if_false]

theorem DeleteField_empty (this : Index) (o : Outcomes) (fieldname : String) (seg : Segment)
    (h : (this.Fields.lookup fieldname).isNone = false) (hpk : fieldname ≠ this.PrimaryKey)
    (hm : this.memorySegment = some seg) (he : seg.IsEmpty = true) :
    this.DeleteField o fieldname =
      some (o.WriteToJson,
        ({ this with memorySegment := some (seg.DeleteField fieldname) } : Index).withoutField
          fieldname) := by
  simp only [Index.DeleteField, h, hpk, hm, he, Bool.false_eq_true, if_false, if_true,
    storeStruct_eq]

theorem DeleteField_seal_err (this : Index) (o : Outcomes) (fieldname : String) (seg : Segment)
    (err : String)
    (h : (this.Fields.lookup fieldname).isNone = false) (hpk : fieldname ≠ this.PrimaryKey)
    (hm : this.memorySegment = some seg) (he : seg.IsEmpty = false)
    (hs : o.Serialization = some err) :
    this.DeleteField o fieldname = some (some err, this.withoutField fieldname) := by
  simp only [Index.DeleteField, h, hpk, hm, he, hs, Bool.false_eq_true, if_false]

theorem DeleteField_seal_ok (this : Index) (o : Outcomes) (fieldname : String) (seg : Segment)
    (h : (this.Fields.lookup fieldname).isNone = false) (hpk : fieldname ≠ this.PrimaryKey)
    (hm : this.memorySegment = some seg) (he : seg.IsEmpty = false)
    (hs : o.Serialization = none) :
    this.DeleteField o fieldname =
      some (o.WriteToJson, ((this.withoutField fieldname).sealSegment seg).newMemorySegment) := by
  simp only [Index.DeleteField, h, hpk, hm, he, hs, Bool.false_eq_true, if_false,
    storeStruct_eq]

theorem withField_Fields (this : Index) (field : SimpleFieldInfo) :
    (this.withField field).Fields = this.Fields ++ [(field.FieldName, field)] := by
  unfold Index.withField
  split_ifs <;> rfl

theorem withField_fieldnames (this : Index) (field : SimpleFieldInfo) :
    (this.withField field).fieldnames = this.fieldnames ++ [field.FieldName] := by
  unfold Index.withField
  split_ifs <;> rfl

theorem withField_PrimaryKey (this : Index) (field : SimpleFieldInfo) :
    (this.withField field).PrimaryKey = this.PrimaryKey := by
  unfold Index.withField
  split_ifs <;> rfl

/-- The schema after `AddField` of a new field. -/
theorem AddField_schema (this : Index) (o : Outcomes) (field : SimpleFieldInfo)
    (h : (this.Fields.lookup field.FieldName).isSome = false) :
    (this.AddField o field).2.Fields = this.Fields ++ [(field.FieldName, field)] ∧
    (this.AddField o field).2.fieldnames = this.fieldnames ++ [field.FieldName] ∧
    (this.AddField o field).2.PrimaryKey =
      (if field.FieldType = IDX_TYPE_PK then field.FieldName else this.PrimaryKey) := by
  by_cases hpk : field.FieldType = IDX_TYPE_PK
  · rw [AddField_pk this o field h hpk]
    simp only [hpk, if_true]
    exact ⟨withField_Fields this field, withField_fieldnames this field, trivial⟩
  · simp only [hpk, if_false]
    cases hm : this.memorySegment with
    | none =>
      rw [AddField_nil this o field h hpk hm]
      exact ⟨withField_Fields this field, withField_fieldnames this field,
        withField_PrimaryKey this field⟩
    | some seg =>
      cases he : seg.IsEmpty with
      | true =>
        cases ha : o.SegAddField with
        | some err =>
          rw [AddField_empty_err this o field seg err h hpk hm he ha]
          exact ⟨withField_Fields this field, withField_fieldnames this field,
            withField_PrimaryKey this field⟩
        | none =>
          rw [AddField_empty_ok this o field seg h hpk hm he ha]
          exact ⟨withField_Fields this field, withField_fieldnames this field,
            withField_PrimaryKey this field⟩
      | false =>
        cases hs : o.Serialization with
        | some err =>
          rw [AddField_seal_err this o field seg err h hpk hm he hs]
          exact ⟨withField_Fields this field, withField_fieldnames this field,
            withField_PrimaryKey this field⟩
        | none =>
          rw [AddField_seal_ok this o field seg h hpk hm he hs]
          exact ⟨withField_Fields this field, withField_fieldnames this field,
            withField_PrimaryKey this field⟩

/-- The schema after a call of `DeleteField` that returns: nothing changed, or the field is
removed from `Fields` only. -/
theorem DeleteField_schema (this : Index) (o : Outcomes) (fieldname : String)
    (r : Error × Index) (h : this.DeleteField o fieldname = some r) :
    r.2 = this ∨
    (r.2.Fields = this.Fields.filter (fun kv => kv.1 != fieldname) ∧
      r.2.fieldnames = this.fieldnames ∧ r.2.PrimaryKey = this.PrimaryKey) := by
  cases hk : (this.Fields.lookup fieldname).isNone with
  | true =>
    rw [DeleteField_unknown this o fieldname hk] at h
    exact Or.inl (by rw [← Option.some.inj h])
  | false =>
    by_cases hpk : fieldname = this.PrimaryKey
    · rw [DeleteField_pk this o fieldname hpk] at h
      exact Or.inl (by rw [← Option.some.inj h])
    · cases hm : this.memorySegment with
      | none =>
        rw [DeleteField_nil this o fieldname hk hpk hm] at h
        exact absurd h (by simp)
      | some seg =>
        cases he : seg.IsEmpty with
        | true =>
          rw [DeleteField_empty this o fieldname seg hk hpk hm he] at h
          exact Or.inr (by rw [← Option.some.inj h]; exact ⟨rfl, rfl, rfl⟩)
        | false =>
          cases hs : o.Serialization with
          | some err =>
            rw [DeleteField_seal_err this o fieldname seg err hk hpk hm he hs] at h
            exact Or.inr (by rw [← Option.some.inj h]; exact ⟨rfl, rfl, rfl⟩)
          | none =>
            rw [DeleteField_seal_ok this o fieldname seg hk hpk hm he hs] at h
            exact Or.inr (by rw [← Option.some.inj h]; exact ⟨rfl, rfl, rfl⟩)

/-! ## `MergeSegments`, case by case -/

theorem findStartIdx_lt (segs : List Segment) (i : Nat) (h : findStartIdx segs = some i) :
    i < segs.length := by
  induction segs generalizing i with
  | nil => simp [findStartIdx] at h
  | cons sg rest ih =>
    unfold findStartIdx at h
    split_ifs at h with hlt
    · simp only [Option.some.injEq] at h
      subst h
      simp
    · cases hr : findStartIdx rest with
      | none => simp [hr] at h
      | some j =>
        simp only [hr, Option.some.injEq] at h
        subst h
        have := ih j hr
        simp only [List.length_cons]
        omega

theorem MergeSegments_none (this : Index) (o : Outcomes)
    (h : findStartIdx this.segments = none) : this.MergeSegments o = some (none, this) := by
  simp [Index.MergeSegments, h]

theorem MergeSegments_start (this : Index) (o : Outcomes) (i : Nat)
    (h : findStartIdx this.segments = some i) :
    ∃ first rest, this.segments.drop i = first :: rest ∧
      this.MergeSegments o = some
        (match o.WriteToJson with
          | some err => (some err, { this with PrefixSegment := (this.PrefixSegment + 1) % 2 ^ 64 })
          | none =>
            (o.WriteToJson2,
              { this with
                PrefixSegment := (this.PrefixSegment + 1) % 2 ^ 64
                segments := this.segments.take i ++
                  [NewSegmentWithLocalFile
                    ((NewEmptySegmentWithFieldsInfo this.newSegmentName first.StartDocId
                      this.nonPKFields).MergeSegments (first :: rest))]
                SegmentNames := this.SegmentNames.take i ++ [this.newSegmentName] })) := by
  have hlt := findStartIdx_lt _ _ h
  cases hd : this.segments.drop i with
  | nil =>
    have := congrArg List.length hd
    simp at this
    omega
  | cons first rest =>
    refine ⟨first, rest, rfl, ?_⟩
    unfold Index.MergeSegments
    simp only [h, hd]
    cases hw : o.WriteToJson with
    | some err => simp [storeStruct_eq]
    | none =>
      by_cases hi : i > 0
      · simp [storeStruct_eq, hi]
      · have : i = 0 := by omega
        subst this
        simp [storeStruct_eq]

/-! ## The primary-key entries of the schema along a run -/

theorem pkInv_mono (s : Index) (k : Nat) (h : pkInv s k) : pkInv s (k + 1) :=
  ⟨Nat.le_succ_of_le h.1, fun hk => h.2 (by omega)⟩

theorem pkInv_call (s : Index) (k : Nat) (o : Outcomes) (op : Op) (r : Error × Index)
    (hinv : pkInv s k) (hop : op.isSchema = true) (hr : s.call o op = some r) :
    pkInv r.2 (k + (if op.addsPK then 1 else 0)) := by
  cases op with
  | AddField field =>
    simp only [Index.call, Option.some.injEq] at hr
    subst hr
    cases hd : (s.Fields.lookup field.FieldName).isSome with
    | true =>
      rw [AddField_dup s o field hd]
      by_cases hp : (Op.AddField field).addsPK = true
      · simp only [hp, if_true]; exact pkInv_mono s k hinv
      · simp only [hp]; exact hinv
    | false =>
      obtain ⟨hF, -, hP⟩ := AddField_schema s o field hd
      by_cases hpk : field.FieldType = IDX_TYPE_PK
      · have hadds : (Op.AddField field).addsPK = true := by simp [Op.addsPK, hpk]
        have hE : (s.AddField o field).2.pkEntries = s.pkEntries ++ [(field.FieldName, field)] := by
          simp [Index.pkEntries, hF, List.filter_append, hpk]
        simp only [hadds, if_true]
        refine ⟨by rw [hE]; simp; exact hinv.1, fun hk kv hkv => ?_⟩
        have hk0 : k = 0 := by omega
        have hnil : s.pkEntries = [] := List.eq_nil_of_length_eq_zero (by have := hinv.1; omega)
        rw [hE, hnil] at hkv
        simp only [List.nil_append, List.mem_singleton] at hkv
        rw [hP, hkv]
        simp [hpk]
      · have hadds : (Op.AddField field).addsPK = false := by simp [Op.addsPK, hpk]
        have hE : (s.AddField o field).2.pkEntries = s.pkEntries := by
          simp [Index.pkEntries, hF, List.filter_append, hpk]
        simp only [hadds, Bool.false_eq_true, if_false, Nat.add_zero]
        refine ⟨by rw [hE]; exact hinv.1, fun hk kv hkv => ?_⟩
        rw [hE] at hkv
        rw [hP]
        simp only [hpk, if_false]
        exact hinv.2 hk kv hkv
  | DeleteField fieldname =>
    simp only [Index.call] at hr
    simp only [Op.addsPK, Bool.false_eq_true, if_false, Nat.add_zero]
    rcases DeleteField_schema s o fieldname r hr with h | ⟨hF, -, hP⟩
    · rw [h]; exact hinv
    · have hE : r.2.pkEntries = s.pkEntries.filter (fun kv => kv.1 != fieldname) := by
        simp only [Index.pkEntries, hF, List.filter_filter]
        congr 1
        funext kv
        exact Bool.and_comm _ _
      refine ⟨?_, fun hk kv hkv => ?_⟩
      · rw [hE]
        exact le_trans (List.length_filter_le _ _) hinv.1
      · rw [hE] at hkv
        rw [hP]
        exact hinv.2 hk kv (List.mem_of_mem_filter hkv)
  | UpdateDocument content => simp [Op.isSchema] at hop
  | SyncMemorySegment => simp [Op.isSchema] at hop
  | MergeSegments => simp [Op.isSchema] at hop

theorem pkInv_run (calls : List (Outcomes × Op)) (s : Index) (k : Nat) (final : Index)
    (hinv : pkInv s k) (hschema : ∀ c ∈ calls, c.2.isSchema = true)
    (hrun : s.run calls = some final) :
    pkInv final (k + countAddsPK calls) := by
  induction calls generalizing s k with
  | nil =>
    simp only [Index.run, Option.some.injEq] at hrun
    subst hrun
    simpa [countAddsPK] using hinv
  | cons c rest ih =>
    obtain ⟨o, op⟩ := c
    simp only [Index.run] at hrun
    cases hc : s.call o op with
    | none => simp [hc] at hrun
    | some r =>
      simp only [hc] at hrun
      have hstep := pkInv_call s k o op r hinv (hschema (o, op) (List.mem_cons_self _ _)) hc
      have := ih r.2 _ hstep (fun c hcm => hschema c (List.mem_cons_of_mem _ hcm)) hrun
      have hcount : k + countAddsPK ((o, op) :: rest)
          = k + (if op.addsPK then 1 else 0) + countAddsPK rest := by
        unfold countAddsPK
        by_cases hp : op.addsPK = true
        · simp [List.filter_cons, hp]; omega
        · simp [List.filter_cons, hp]
      rw [hcount]
      exact this

/-! ## The roster along a run -/

theorem linked_append_fresh (l : List (Nat × Nat)) (m b : Nat) (h : linked l)
    (he : endsAt l m) : linked (l ++ [(m, b)]) := by
  unfold linked
  rw [List.chain'_append]
  refine ⟨h, List.chain'_singleton _, fun x hx y hy => ?_⟩
  simp only [List.head?_cons, Option.mem_def, Option.some.injEq] at hy
  subst hy
  exact he x hx

theorem linked_change_last (l : List (Nat × Nat)) (a b c : Nat)
    (h : linked (l ++ [(a, b)])) : linked (l ++ [(a, c)]) := by
  unfold linked at h ⊢
  rw [List.chain'_append] at h ⊢
  obtain ⟨h1, -, h3⟩ := h
  refine ⟨h1, List.chain'_singleton _, fun x hx y hy => ?_⟩
  simp only [List.head?_cons, Option.mem_def, Option.some.injEq] at hy
  subst hy
  exact h3 x hx (a, b) rfl

theorem endsAt_concat (l : List (Nat × Nat)) (a m : Nat) : endsAt (l ++ [(a, m)]) m := by
  intro x hx
  rw [List.getLast?_concat] at hx
  simp only [Option.mem_def, Option.some.injEq] at hx
  subst hx
  rfl

theorem endsAt_concat_iff (l : List (Nat × Nat)) (a b m : Nat) :
    endsAt (l ++ [(a, b)]) m ↔ b = m := by
  unfold endsAt
  rw [List.getLast?_concat]
  simp

/-- Replacing a non-empty run of consecutive ranges by the single range that spans it keeps
the list linked. -/
theorem linked_merge (pre post : List (Nat × Nat)) (x : Nat × Nat) (mid : List (Nat × Nat))
    (h : linked (pre ++ (x :: mid) ++ post)) :
    linked (pre ++ [(x.1, ((x :: mid).getLast (List.cons_ne_nil _ _)).2)] ++ post) := by
  unfold linked at h ⊢
  rw [List.chain'_append, List.chain'_append] at h
  obtain ⟨⟨hpre, hmid, hpm⟩, hpost, hmp⟩ := h
  rw [List.chain'_append, List.chain'_append]
  refine ⟨⟨hpre, List.chain'_singleton _, fun a ha b hb => ?_⟩, hpost, fun a ha b hb => ?_⟩
  · simp only [List.head?_cons, Option.mem_def, Option.some.injEq] at hb
    subst hb
    exact hpm a ha x rfl
  · rw [List.getLast?_concat] at ha
    simp only [Option.mem_def, Option.some.injEq] at ha
    subst ha
    refine hmp ((x :: mid).getLast (List.cons_ne_nil _ _)) ?_ b hb
    rw [List.getLast?_append_of_ne_nil _ (List.cons_ne_nil _ _)]
    exact List.getLast?_eq_getLast _ _

theorem endsAt_merge (pre post : List (Nat × Nat)) (x : Nat × Nat) (mid : List (Nat × Nat))
    (m : Nat) (h : endsAt (pre ++ (x :: mid) ++ post) m) :
    endsAt (pre ++ [(x.1, ((x :: mid).getLast (List.cons_ne_nil _ _)).2)] ++ post) m := by
  unfold endsAt at h ⊢
  cases post with
  | nil =>
    simp only [List.append_nil] at h ⊢
    rw [List.getLast?_concat]
    intro y hy
    simp only [Option.mem_def, Option.some.injEq] at hy
    subst hy
    refine h ((x :: mid).getLast (List.cons_ne_nil _ _)) ?_
    rw [List.getLast?_append_of_ne_nil _ (List.cons_ne_nil _ _)]
    exact List.getLast?_eq_getLast _ _
  | cons p ps =>
    rw [List.getLast?_append_of_ne_nil _ (List.cons_ne_nil _ _)] at h ⊢
    exact h

theorem ranges_def (s : Index) :
    s.ranges = s.segments.map Segment.range ++ (s.memorySegment.map Segment.range).toList := by
  unfold Index.ranges Index.roster
  cases s.memorySegment <;> simp

theorem withField_segments (this : Index) (field : SimpleFieldInfo) :
    (this.withField field).segments = this.segments := by
  unfold Index.withField
  split_ifs <;> rfl

theorem withField_MaxDocId (this : Index) (field : SimpleFieldInfo) :
    (this.withField field).MaxDocId = this.MaxDocId := by
  unfold Index.withField
  split_ifs <;> rfl

theorem freshSegment_range (this : Index) :
    this.freshSegment.range = (this.MaxDocId, this.MaxDocId) := rfl

theorem AddField_rangeStep (s : Index) (o : Outcomes) (field : SimpleFieldInfo) :
    rangeStep s.ranges s.MaxDocId (s.AddField o field).2.ranges
      (s.AddField o field).2.MaxDocId := by
  cases hd : (s.Fields.lookup field.FieldName).isSome with
  | true =>
    rw [AddField_dup s o field hd]
    exact Or.inl ⟨rfl, rfl⟩
  | false =>
    by_cases hpk : field.FieldType = IDX_TYPE_PK
    · rw [AddField_pk s o field hd hpk]
      refine Or.inl ⟨?_, withField_MaxDocId s field⟩
      rw [ranges_def, ranges_def]
      simp only [withField_segments, withField_memorySegment]
    · cases hm : s.memorySegment with
      | none =>
        rw [AddField_nil s o field hd hpk hm]
        refine Or.inr (Or.inl ⟨?_, withField_MaxDocId s field⟩)
        rw [ranges_def, ranges_def]
        simp [Index.newMemorySegment, withField_segments, hm, freshSegment_range,
          withField_MaxDocId]
      | some seg =>
        cases he : seg.IsEmpty with
        | true =>
          cases ha : o.SegAddField with
          | some err =>
            rw [AddField_empty_err s o field seg err hd hpk hm he ha]
            refine Or.inl ⟨?_, withField_MaxDocId s field⟩
            rw [ranges_def, ranges_def]
            simp only [withField_segments, hm]
          | none =>
            rw [AddField_empty_ok s o field seg hd hpk hm he ha]
            refine Or.inl ⟨?_, withField_MaxDocId s field⟩
            rw [ranges_def, ranges_def]
            simp only [withField_segments, hm]
            rfl
        | false =>
          cases hs : o.Serialization with
          | some err =>
            rw [AddField_seal_err s o field seg err hd hpk hm he hs]
            refine Or.inl ⟨?_, withField_MaxDocId s field⟩
            rw [ranges_def, ranges_def]
            simp only [withField_segments, withField_memorySegment]
          | none =>
            rw [AddField_seal_ok s o field seg hd hpk hm he hs]
            refine Or.inr (Or.inl ⟨?_, withField_MaxDocId s field⟩)
            rw [ranges_def, ranges_def]
            simp [Index.newMemorySegment, Index.sealSegment, withField_segments, hm,
              freshSegment_range, withField_MaxDocId]

theorem DeleteField_rangeStep (s : Index) (o : Outcomes) (fieldname : String)
    (r : Error × Index) (h : s.DeleteField o fieldname = some r) :
    rangeStep s.ranges s.MaxDocId r.2.ranges r.2.MaxDocId := by
  cases hk : (s.Fields.lookup fieldname).isNone with
  | true =>
    rw [DeleteField_unknown s o fieldname hk] at h
    rw [← Option.some.inj h]
    exact Or.inl ⟨rfl, rfl⟩
  | false =>
    by_cases hpk : fieldname = s.PrimaryKey
    · rw [DeleteField_pk s o fieldname hpk] at h
      rw [← Option.some.inj h]
      exact Or.inl ⟨rfl, rfl⟩
    · cases hm : s.memorySegment with
      | none =>
        rw [DeleteField_nil s o fieldname hk hpk hm] at h
        exact absurd h (by simp)
      | some seg =>
        cases he : seg.IsEmpty with
        | true =>
          rw [DeleteField_empty s o fieldname seg hk hpk hm he] at h
          rw [← Option.some.inj h]
          refine Or.inl ⟨?_, rfl⟩
          rw [ranges_def, ranges_def]
          simp only [Index.withoutField, hm]
          rfl
        | false =>
          cases hs : o.Serialization with
          | some err =>
            rw [DeleteField_seal_err s o fieldname seg err hk hpk hm he hs] at h
            rw [← Option.some.inj h]
            refine Or.inl ⟨?_, rfl⟩
            rw [ranges_def, ranges_def]
            simp only [Index.withoutField]
          | none =>
            rw [DeleteField_seal_ok s o fieldname seg hk hpk hm he hs] at h
            rw [← Option.some.inj h]
            refine Or.inr (Or.inl ⟨?_, rfl⟩)
            rw [ranges_def, ranges_def]
            simp [Index.newMemorySegment, Index.sealSegment, Index.withoutField, hm,
              freshSegment_range]

theorem prepared_ranges (s : Index) :
    s.prepared.ranges = s.segments.map Segment.range ++ [s.writeSegment.range] := by
  rw [ranges_def, prepared_segments, prepared_memorySegment]
  rfl

theorem rollback_eq (m : Nat) (h : m < 2 ^ 32) :
    ((m + 1) % 2 ^ 32 + 2 ^ 32 - 1) % 2 ^ 32 = m := by
  omega

theorem UpdateDocument_rangeStep (s : Index) (o : Outcomes) (content : Content)
    (hadd : o.AddDocument = none) (hlt : s.MaxDocId < 2 ^ 32) :
    rangeStep s.ranges s.MaxDocId (s.UpdateDocument o content).2.ranges
      (s.UpdateDocument o content).2.MaxDocId := by
  have hprep : rangeStep s.ranges s.MaxDocId s.prepared.ranges s.MaxDocId := by
    cases hm : s.memorySegment with
    | some seg => rw [prepared_some s seg hm]; exact Or.inl ⟨rfl, rfl⟩
    | none =>
      refine Or.inr (Or.inl ⟨?_, rfl⟩)
      rw [prepared_ranges, ranges_def, hm, writeSegment_none s hm, freshSegment_range]
      simp
  rcases UpdateDocument_cases s o content with h | ⟨err, h⟩ | ⟨err, h⟩ | ⟨db, h⟩
  · rw [h]; exact Or.inl ⟨rfl, rfl⟩
  · rw [h, prepared_MaxDocId]; exact hprep
  · rw [h]
    have hr : ({ s.prepared with
        MaxDocId := ((s.MaxDocId + 1) % 2 ^ 32 + 2 ^ 32 - 1) % 2 ^ 32 } : Index).ranges
        = s.prepared.ranges := by
      rw [ranges_def, ranges_def]
    rw [hr]
    show rangeStep _ _ _ (((s.MaxDocId + 1) % 2 ^ 32 + 2 ^ 32 - 1) % 2 ^ 32)
    rw [rollback_eq _ hlt]
    exact hprep
  · rw [h, hadd]
    have hr : ({ s.prepared with
        MaxDocId := (s.MaxDocId + 1) % 2 ^ 32
        primary := db
        memorySegment := some (s.writeSegment.AddDocument none s.MaxDocId content).2 } : Index).ranges
        = s.segments.map Segment.range ++ [(s.writeSegment.StartDocId, (s.MaxDocId + 1) % 2 ^ 32)] := by
      rw [ranges_def]
      simp only [prepared_segments]
      rfl
    rw [hr]
    show rangeStep _ _ _ ((s.MaxDocId + 1) % 2 ^ 32)
    cases hm : s.memorySegment with
    | some seg =>
      refine Or.inr (Or.inr (Or.inl ⟨s.segments.map Segment.range, seg.StartDocId, seg.MaxDocId,
        ?_, ?_, rfl⟩))
      · rw [ranges_def, hm]; rfl
      · rw [writeSegment_some s seg hm]
    | none =>
      refine Or.inr (Or.inr (Or.inr (Or.inl ⟨?_, rfl⟩)))
      rw [ranges_def, hm, writeSegment_none s hm]
      simp [Index.freshSegment, NewEmptySegmentWithFieldsInfo]

theorem SyncMemorySegment_rangeStep (s : Index) (o : Outcomes) :
    rangeStep s.ranges s.MaxDocId (s.SyncMemorySegment o).2.ranges
      (s.SyncMemorySegment o).2.MaxDocId := by
  cases hm : s.memorySegment with
  | none => rw [SyncMemorySegment_nil s o hm]; exact Or.inl ⟨rfl, rfl⟩
  | some seg =>
    cases hs : o.Serialization with
    | some err => rw [SyncMemorySegment_ser_err s o seg err hm hs]; exact Or.inl ⟨rfl, rfl⟩
    | none =>
      rw [SyncMemorySegment_ser_ok s o seg hm hs]
      refine Or.inl ⟨?_, rfl⟩
      rw [ranges_def, ranges_def, hm]
      simp

theorem getLast_map_range (segs : List Segment) (h : segs ≠ []) :
    ((segs.map Segment.range).getLast (by simpa using h)).2 = (segs.getLast h).MaxDocId := by
  rw [List.getLast_map]
  rfl

theorem MergeSegments_rangeStep (s : Index) (o : Outcomes) (r : Error × Index)
    (h : s.MergeSegments o = some r) :
    rangeStep s.ranges s.MaxDocId r.2.ranges r.2.MaxDocId := by
  cases hf : findStartIdx s.segments with
  | none =>
    rw [MergeSegments_none s o hf] at h
    rw [← Option.some.inj h]
    exact Or.inl ⟨rfl, rfl⟩
  | some i =>
    obtain ⟨first, rest, hdrop, hm⟩ := MergeSegments_start s o i hf
    rw [hm] at h
    rw [← Option.some.inj h]
    cases hw : o.WriteToJson with
    | some err =>
      refine Or.inl ⟨?_, rfl⟩
      rw [ranges_def, ranges_def]
    | none =>
      refine Or.inr (Or.inr (Or.inr (Or.inr ⟨(s.segments.take i).map Segment.range,
        first.range, rest.map Segment.range, (s.memorySegment.map Segment.range).toList,
        ?_, ?_, rfl⟩)))
      · rw [ranges_def]
        congr 1
        rw [← List.map_cons, ← hdrop, ← List.map_append, List.take_append_drop]
      · rw [ranges_def]
        simp only [List.map_append, List.map_cons, List.map_nil]
        congr 3
        simp only [NewSegmentWithLocalFile, Segment.MergeSegments, Segment.range,
          NewEmptySegmentWithFieldsInfo]
        congr 1
        rw [List.getLast?_eq_getLast _ (List.cons_ne_nil _ _)]
        have := getLast_map_range (first :: rest) (List.cons_ne_nil _ _)
        simp only [List.map_cons] at this
        exact this.symm

theorem ordered_append (l₁ l₂ : List (Nat × Nat)) :
    ordered (l₁ ++ l₂) ↔ ordered l₁ ∧ ordered l₂ := by
  unfold ordered
  constructor
  · intro h
    exact ⟨fun x hx => h x (List.mem_append_left _ hx), fun x hx => h x (List.mem_append_right _ hx)⟩
  · rintro ⟨h1, h2⟩ x hx
    rcases List.mem_append.1 hx with h | h
    · exact h1 x h
    · exact h2 x h

theorem ordered_singleton (a b : Nat) : ordered [(a, b)] ↔ a ≤ b := by
  simp [ordered]

/-- In a linked list of ordered ranges, the head starts at or before the end of the last
range. -/
theorem span_le (x : Nat × Nat) (mid : List (Nat × Nat)) (h : linked (x :: mid))
    (ho : ordered (x :: mid)) : x.1 ≤ ((x :: mid).getLast (List.cons_ne_nil _ _)).2 := by
  induction mid generalizing x with
  | nil => simpa using ho x (List.mem_singleton_self _)
  | cons y ys ih =>
    have hxy : x.2 = y.1 := (List.chain'_cons.1 h).1
    have hrest : linked (y :: ys) := (List.chain'_cons.1 h).2
    have hy := ih y hrest (fun z hz => ho z (List.mem_cons_of_mem _ hz))
    have hx := ho x (List.mem_cons_self _ _)
    rw [List.getLast_cons (List.cons_ne_nil _ _)]
    omega

theorem rosterInv_step (l l' : List (Nat × Nat)) (m m' k : Nat) (h : rosterInv l m k)
    (hs : rangeStep l m l' m') : rosterInv l' m' (k + 1) := by
  obtain ⟨hl, he, hm, hk⟩ := h
  rcases hs with ⟨rfl, rfl⟩ | ⟨rfl, rfl⟩ | ⟨init, a, b, rfl, rfl, rfl⟩ | ⟨rfl, rfl⟩ |
    ⟨pre, x, mid, post, rfl, rfl, rfl⟩
  · exact ⟨hl, he, hm, fun hk1 => ⟨(hk (by omega)).1, by have := (hk (by omega)).2; omega⟩⟩
  · refine ⟨linked_append_fresh _ _ _ hl he, endsAt_concat _ _ _, hm, fun hk1 => ?_⟩
    obtain ⟨ho, hmk⟩ := hk (by omega)
    exact ⟨(ordered_append _ _).2 ⟨ho, (ordered_singleton _ _).2 le_rfl⟩, by omega⟩
  · refine ⟨linked_change_last _ _ _ _ hl, endsAt_concat _ _ _, Nat.mod_lt _ (by norm_num),
      fun hk1 => ?_⟩
    obtain ⟨ho, hmk⟩ := hk (by omega)
    have hb : b = m := (endsAt_concat_iff _ _ _ _).1 he
    have hab : a ≤ b := (ordered_singleton _ _).1 ((ordered_append _ _).1 ho).2
    have hmod : (m + 1) % 2 ^ 32 = m + 1 := Nat.mod_eq_of_lt (by omega)
    rw [hmod]
    exact ⟨(ordered_append _ _).2 ⟨((ordered_append _ _).1 ho).1,
      (ordered_singleton _ _).2 (by omega)⟩, by omega⟩
  · refine ⟨linked_append_fresh _ _ _ hl he, endsAt_concat _ _ _, Nat.mod_lt _ (by norm_num),
      fun hk1 => ?_⟩
    obtain ⟨ho, hmk⟩ := hk (by omega)
    have hmod : (m + 1) % 2 ^ 32 = m + 1 := Nat.mod_eq_of_lt (by omega)
    rw [hmod]
    exact ⟨(ordered_append _ _).2 ⟨ho, (ordered_singleton _ _).2 (by omega)⟩, by omega⟩
  · refine ⟨linked_merge _ _ _ _ hl, endsAt_merge _ _ _ _ _ he, hm, fun hk1 => ?_⟩
    obtain ⟨ho, hmk⟩ := hk (by omega)
    refine ⟨?_, by omega⟩
    have ho1 := (ordered_append _ _).1 ho
    have ho2 := (ordered_append _ _).1 ho1.1
    have hl1 : linked (x :: mid) := by
      have := (List.chain'_append.1 hl).1
      exact (List.chain'_append.1 this).2.1
    exact (ordered_append _ _).2 ⟨(ordered_append _ _).2 ⟨ho2.1,
      (ordered_singleton _ _).2 (span_le x mid hl1 ho2.2)⟩, ho1.2⟩

theorem call_rangeStep (s : Index) (o : Outcomes) (op : Op) (r : Error × Index)
    (hadd : o.AddDocument = none) (hlt : s.MaxDocId < 2 ^ 32) (h : s.call o op = some r) :
    rangeStep s.ranges s.MaxDocId r.2.ranges r.2.MaxDocId := by
  cases op with
  | AddField field =>
    simp only [Index.call, Option.some.injEq] at h
    subst h
    exact AddField_rangeStep s o field
  | DeleteField fieldname => exact DeleteField_rangeStep s o fieldname r h
  | UpdateDocument content =>
    simp only [Index.call, Option.some.injEq] at h
    subst h
    exact UpdateDocument_rangeStep s o content hadd hlt
  | SyncMemorySegment =>
    simp only [Index.call, Option.some.injEq] at h
    subst h
    exact SyncMemorySegment_rangeStep s o
  | MergeSegments => exact MergeSegments_rangeStep s o r h

theorem rosterInv_run (calls : List (Outcomes × Op)) (s final : Index) (k : Nat)
    (hinv : rosterInv s.ranges s.MaxDocId k)
    (hadd : ∀ c ∈ calls, c.1.AddDocument = none)
    (hrun : s.run calls = some final) :
    rosterInv final.ranges final.MaxDocId (k + calls.length) := by
  induction calls generalizing s k with
  | nil =>
    simp only [Index.run, Option.some.injEq] at hrun
    subst hrun
    simpa using hinv
  | cons c rest ih =>
    obtain ⟨o, op⟩ := c
    simp only [Index.run] at hrun
    cases hc : s.call o op with
    | none => simp [hc] at hrun
    | some r =>
      simp only [hc] at hrun
      have hstep := rosterInv_step _ _ _ _ k hinv
        (call_rangeStep s o op r (hadd (o, op) (List.mem_cons_self _ _)) hinv.2.2.1 hc)
      have := ih r.2 (k + 1) hstep (fun c hcm => hadd c (List.mem_cons_of_mem _ hcm)) hrun
      have hlen : k + ((o, op) :: rest).length = k + 1 + rest.length := by
        simp only [List.length_cons]; omega
      rw [hlen]
      exact this

theorem contiguousList_iff (segs : List Segment) :
    contiguousList segs = true ↔ linked (segs.map Segment.range) := by
  induction segs with
  | nil => simp [contiguousList, linked]
  | cons a rest ih =>
    cases rest with
    | nil => simp [contiguousList, linked]
    | cons b rest2 =>
      simp only [contiguousList, Bool.and_eq_true, beq_iff_eq, ih, List.map_cons, linked,
        List.chain'_cons, Segment.range]

/-- In a linked list of ordered ranges every later range starts at or after the end of the
head. -/
theorem linked_head_le (x : Nat × Nat) (rest : List (Nat × Nat)) (h : linked (x :: rest))
    (ho : ordered (x :: rest)) : ∀ y ∈ rest, x.2 ≤ y.1 := by
  induction rest generalizing x with
  | nil => intro y hy; simp at hy
  | cons z zs ih =>
    have hxz : x.2 = z.1 := (List.chain'_cons.1 h).1
    have hrest : linked (z :: zs) := (List.chain'_cons.1 h).2
    have hz := ho z (List.mem_cons_of_mem _ (List.mem_cons_self _ _))
    intro y hy
    rcases List.mem_cons.1 hy with rfl | hy
    · omega
    · have := ih z hrest (fun w hw => ho w (List.mem_cons_of_mem _ hw)) y hy
      omega

theorem inRange_unique (l : List (Nat × Nat)) (h : linked l) (ho : ordered l) (d : Nat) :
    (l.filter (fun x => decide (x.1 ≤ d ∧ d < x.2))).length ≤ 1 := by
  induction l with
  | nil => simp
  | cons x rest ih =>
    have hrest : linked rest := List.Chain'.tail h
    have ih' := ih hrest (fun w hw => ho w (List.mem_cons_of_mem _ hw))
    by_cases hx : x.1 ≤ d ∧ d < x.2
    · have hnil : rest.filter (fun y => decide (y.1 ≤ d ∧ d < y.2)) = [] := by
        rw [List.filter_eq_nil_iff]
        intro y hy
        have := linked_head_le x rest h ho y hy
        simp only [decide_eq_true_eq, not_and, not_lt]
        intro _
        omega
      have hdx : decide (x.1 ≤ d ∧ d < x.2) = true := decide_eq_true hx
      rw [List.filter_cons, if_pos hdx, hnil]
      exact le_rfl
    · have hdx : ¬ (decide (x.1 ≤ d ∧ d < x.2) = true) := by simpa using hx
      rw [List.filter_cons, if_neg hdx]
      exact ih'

/-! ## Keys of association lists -/


theorem lookup_isSome_iff_mem_keys {β : Type} (l : List (String × β)) (k : String) :
    (l.lookup k).isSome = true ↔ k ∈ l.map Prod.fst := by
  induction l with
  | nil => simp
  | cons kv rest ih =>
    obtain ⟨k', v⟩ := kv
    by_cases hk : k = k'
    · subst hk
      simp [List.lookup_cons]
    · have hb : (k == k') = false := by simpa using hk
      simp [List.lookup_cons, hb, ih, hk]

/-! ## The name list of the roster along a run -/

theorem withField_SegmentNames (this : Index) (field : SimpleFieldInfo) :
    (this.withField field).SegmentNames = this.SegmentNames := by
  unfold Index.withField
  split_ifs <;> rfl

theorem withField_PrefixSegment (this : Index) (field : SimpleFieldInfo) :
    (this.withField field).PrefixSegment = this.PrefixSegment := by
  unfold Index.withField
  split_ifs <;> rfl

theorem withField_newSegmentName (this : Index) (field : SimpleFieldInfo) :
    (this.withField field).newSegmentName = this.newSegmentName := by
  unfold Index.withField
  split_ifs <;> rfl

/-- The non-PK fields collected after a non-PK field was added: those of the old schema,
then the new field. -/
theorem withField_nonPKFields (this : Index) (field : SimpleFieldInfo) (seg : Segment)
    (hpk : field.FieldType ≠ IDX_TYPE_PK) :
    ((this.withField field).sealSegment seg).nonPKFields
      = (this.Fields.map Prod.snd).filter (fun f => f.FieldType != IDX_TYPE_PK) ++ [field] := by
  show (((this.withField field).Fields.map Prod.snd).filter (fun f => f.FieldType != IDX_TYPE_PK)) = _
  rw [withField_Fields]
  simp [hpk]

theorem findStartIdx_none_of_all_big (segs : List Segment)
    (h : ∀ sg ∈ segs, ¬ sg.docLen < 1000000) : findStartIdx segs = none := by
  induction segs with
  | nil => rfl
  | cons sg rest ih =>
    have h1 := h sg (List.mem_cons_self _ _)
    have h2 := ih (fun s hs => h s (List.mem_cons_of_mem _ hs))
    simp only [findStartIdx, h1, if_false, h2]

theorem findStartIdx_least (segs : List Segment) (i : Nat) (sg : Segment)
    (hget : segs[i]? = some sg) (hsmall : sg.docLen < 1000000)
    (hleast : ∀ j sj, j < i → segs[j]? = some sj → ¬ sj.docLen < 1000000) :
    findStartIdx segs = some i := by
  induction segs generalizing i with
  | nil => simp at hget
  | cons s rest ih =>
    cases i with
    | zero =>
      simp only [List.getElem?_cons_zero, Option.some.injEq] at hget
      subst hget
      simp only [findStartIdx, hsmall, if_true]
    | succ k =>
      have h0 : ¬ s.docLen < 1000000 := hleast 0 s (Nat.succ_pos k) (by simp)
      have hk : rest[k]? = some sg := by simpa using hget
      have := ih k hk (fun j sj hj hsj => hleast (j + 1) sj (by omega) (by simpa using hsj))
      simp only [findStartIdx, h0, if_false, this]

theorem namesRoster_of_eq (s s' : Index) (hs : s'.segments = s.segments)
    (hn : s'.SegmentNames = s.SegmentNames) (h : s.namesRoster) : s'.namesRoster := by
  unfold Index.namesRoster at h ⊢
  rw [hs, hn, h]

theorem AddField_namesRoster (s : Index) (o : Outcomes) (field : SimpleFieldInfo)
    (h : s.namesRoster) : (s.AddField o field).2.namesRoster := by
  have hwf : (s.withField field).namesRoster :=
    namesRoster_of_eq s _ (withField_segments s field) (withField_SegmentNames s field) h
  cases hd : (s.Fields.lookup field.FieldName).isSome with
  | true => rw [AddField_dup s o field hd]; exact h
  | false =>
    by_cases hpk : field.FieldType = IDX_TYPE_PK
    · rw [AddField_pk s o field hd hpk]
      exact namesRoster_of_eq _ _ rfl rfl hwf
    · cases hm : s.memorySegment with
      | none =>
        rw [AddField_nil s o field hd hpk hm]
        exact namesRoster_of_eq _ _ rfl rfl hwf
      | some seg =>
        cases he : seg.IsEmpty with
        | true =>
          cases ha : o.SegAddField with
          | some err =>
            rw [AddField_empty_err s o field seg err hd hpk hm he ha]
            exact namesRoster_of_eq _ _ rfl rfl hwf
          | none =>
            rw [AddField_empty_ok s o field seg hd hpk hm he ha]
            exact namesRoster_of_eq _ _ rfl rfl hwf
        | false =>
          cases hs : o.Serialization with
          | some err =>
            rw [AddField_seal_err s o field seg err hd hpk hm he hs]
            exact hwf
          | none =>
            rw [AddField_seal_ok s o field seg hd hpk hm he hs]
            rfl

theorem DeleteField_namesRoster (s : Index) (o : Outcomes) (fieldname : String)
    (r : Error × Index) (hr : s.DeleteField o fieldname = some r) (h : s.namesRoster) :
    r.2.namesRoster := by
  cases hk : (s.Fields.lookup fieldname).isNone with
  | true =>
    rw [DeleteField_unknown s o fieldname hk] at hr
    rw [← Option.some.inj hr]; exact h
  | false =>
    by_cases hpk : fieldname = s.PrimaryKey
    · rw [DeleteField_pk s o fieldname hpk] at hr
      rw [← Option.some.inj hr]; exact h
    · cases hm : s.memorySegment with
      | none =>
        rw [DeleteField_nil s o fieldname hk hpk hm] at hr
        exact absurd hr (by simp)
      | some seg =>
        cases he : seg.IsEmpty with
        | true =>
          rw [DeleteField_empty s o fieldname seg hk hpk hm he] at hr
          rw [← Option.some.inj hr]
          exact namesRoster_of_eq s _ rfl rfl h
        | false =>
          cases hs : o.Serialization with
          | some err =>
            rw [DeleteField_seal_err s o fieldname seg err hk hpk hm he hs] at hr
            rw [← Option.some.inj hr]
            exact namesRoster_of_eq s _ rfl rfl h
          | none =>
            rw [DeleteField_seal_ok s o fieldname seg hk hpk hm he hs] at hr
            rw [← Option.some.inj hr]
            rfl

theorem frame_segments (s : Index) (m : Nat) :
    ({ s with MaxDocId := m } : Index).segments = s.segments := rfl

theorem frame_SegmentNames (s : Index) (m : Nat) :
    ({ s with MaxDocId := m } : Index).SegmentNames = s.SegmentNames := rfl

/-- The sealed roster and `SegmentNames` are not touched by `UpdateDocument`. -/
theorem UpdateDocument_sealed (s : Index) (o : Outcomes) (content : Content) :
    (s.UpdateDocument o content).2.segments = s.segments ∧
    (s.UpdateDocument o content).2.SegmentNames = s.SegmentNames := by
  rcases UpdateDocument_cases s o content with h | ⟨err, h⟩ | ⟨err, h⟩ | ⟨db, h⟩
  · rw [h]; exact ⟨rfl, rfl⟩
  · rw [h]; exact ⟨prepared_segments s, prepared_SegmentNames s⟩
  · rw [h]
    exact ⟨(frame_segments s.prepared _).trans (prepared_segments s),
      (frame_SegmentNames s.prepared _).trans (prepared_SegmentNames s)⟩
  · rw [h]; exact ⟨prepared_segments s, prepared_SegmentNames s⟩

theorem SyncMemorySegment_namesRoster (s : Index) (o : Outcomes) (h : s.namesRoster) :
    (s.SyncMemorySegment o).2.namesRoster := by
  cases hm : s.memorySegment with
  | none => rw [SyncMemorySegment_nil s o hm]; exact h
  | some seg =>
    cases hs : o.Serialization with
    | some err => rw [SyncMemorySegment_ser_err s o seg err hm hs]; exact h
    | none =>
      rw [SyncMemorySegment_ser_ok s o seg hm hs]
      unfold Index.namesRoster at h ⊢
      show s.SegmentNames ++ [seg.SegmentName] = (s.segments ++ [seg]).map _
      rw [h, List.map_append]
      rfl

theorem MergeSegments_namesRoster (s : Index) (o : Outcomes) (r : Error × Index)
    (hr : s.MergeSegments o = some r) (h : s.namesRoster) : r.2.namesRoster := by
  cases hf : findStartIdx s.segments with
  | none =>
    rw [MergeSegments_none s o hf] at hr
    rw [← Option.some.inj hr]; exact h
  | some i =>
    obtain ⟨first, rest, -, hm⟩ := MergeSegments_start s o i hf
    rw [hm] at hr
    rw [← Option.some.inj hr]
    cases hw : o.WriteToJson with
    | some err => exact namesRoster_of_eq s _ rfl rfl h
    | none =>
      unfold Index.namesRoster at h ⊢
      show s.SegmentNames.take i ++ [s.newSegmentName] = (s.segments.take i ++ [_]).map _
      rw [h, List.map_append, List.map_take]
      rfl

theorem call_namesRoster (s : Index) (o : Outcomes) (op : Op) (r : Error × Index)
    (hr : s.call o op = some r) (h : s.namesRoster) : r.2.namesRoster := by
  cases op with
  | AddField field =>
    simp only [Index.call, Option.some.injEq] at hr
    subst hr
    exact AddField_namesRoster s o field h
  | DeleteField fieldname => exact DeleteField_namesRoster s o fieldname r hr h
  | UpdateDocument content =>
    simp only [Index.call, Option.some.injEq] at hr
    subst hr
    exact namesRoster_of_eq s _ (UpdateDocument_sealed s o content).1
      (UpdateDocument_sealed s o content).2 h
  | SyncMemorySegment =>
    simp only [Index.call, Option.some.injEq] at hr
    subst hr
    exact SyncMemorySegment_namesRoster s o h
  | MergeSegments => exact MergeSegments_namesRoster s o r hr h

theorem run_namesRoster (calls : List (Outcomes × Op)) (s final : Index)
    (h : s.namesRoster) (hrun : s.run calls = some final) : final.namesRoster := by
  induction calls generalizing s with
  | nil =>
    simp only [Index.run, Option.some.injEq] at hrun
    subst hrun
    exact h
  | cons c rest ih =>
    obtain ⟨o, op⟩ := c
    simp only [Index.run] at hrun
    cases hc : s.call o op with
    | none => simp [hc] at hrun
    | some r =>
      simp only [hc] at hrun
      exact ih r.2 (call_namesRoster s o op r hc h) hrun

/-! ## Search and gather -/

theorem searchSegments_congr (s s' : Index) (env : SearchEnv) (query : FSSearchQuery)
    (filteds : List FSSearchFilted) (docids : List DocIdNode)
    (hs : s'.segments = s.segments) (hb : s'.bitmap = s.bitmap) :
    s'.searchSegments env query filteds docids = s.searchSegments env query filteds docids := by
  unfold Index.searchSegments
  rw [hs, hb]

theorem searchRest_congr (s s' : Index) (env : SearchEnv) (filteds : List FSSearchFilted)
    (hs : s'.segments = s.segments) (hb : s'.bitmap = s.bitmap)
    (hm : s'.MaxDocId = s.MaxDocId) (rest : List FSSearchQuery) (docids : List DocIdNode) :
    s'.searchRest env filteds rest docids = s.searchRest env filteds rest docids := by
  induction rest generalizing docids with
  | nil => rfl
  | cons query rest ih =>
    simp only [Index.searchRest, searchSegments_congr s s' env query filteds [] hs hb, hm, ih]

/-- The result of `SearchDocIds` depends on the index through the sealed roster, the bitmap
and `MaxDocId` only. -/
theorem SearchDocIds_congr (s s' : Index) (env : SearchEnv) (querys : List FSSearchQuery)
    (filteds : List FSSearchFilted)
    (hs : s'.segments = s.segments) (hb : s'.bitmap = s.bitmap)
    (hm : s'.MaxDocId = s.MaxDocId) :
    s'.SearchDocIds env querys filteds = s.SearchDocIds env querys filteds := by
  cases querys with
  | nil => rfl
  | cons query0 rest =>
    simp only [Index.SearchDocIds, searchSegments_congr s s' env query0 filteds [] hs hb, hm,
      searchRest_congr s s' env filteds hs hb hm]

theorem SearchDocIds_no_sealed (s : Index) (env : SearchEnv) (query : FSSearchQuery)
    (filteds : List FSSearchFilted) (hs : s.segments = []) :
    s.SearchDocIds env [query] filteds = some (some (env.ComputeWeight [] 0 s.MaxDocId), true) := by
  simp [Index.SearchDocIds, Index.searchSegments, hs]

/-- The per-segment search appends to the accumulator it is given. -/
theorem SegSearchDocIds_acc (passes : FSSearchFilted → Content → Bool) (seg : Segment)
    (query : FSSearchQuery) (filteds : List FSSearchFilted) (bitmap : Bitmap)
    (docids : List DocIdNode) :
    seg.SearchDocIds passes query filteds bitmap docids
      = docids ++ seg.SearchDocIds passes query filteds bitmap [] := by
  simp [Segment.SearchDocIds]

/-- The fan-out over a list of segments returns the accumulator followed by the matches of
each segment, in list order. -/
theorem foldl_SearchDocIds (passes : FSSearchFilted → Content → Bool)
    (query : FSSearchQuery) (filteds : List FSSearchFilted) (bitmap : Bitmap)
    (segs : List Segment) (docids : List DocIdNode) :
    segs.foldl (fun acc segment => Segment.SearchDocIds passes segment query filteds bitmap acc)
        docids
      = docids ++
        (segs.map (fun seg => seg.SearchDocIds passes query filteds bitmap [])).flatten := by
  induction segs generalizing docids with
  | nil => simp
  | cons seg rest ih =>
    rw [List.foldl_cons, ih, SegSearchDocIds_acc]
    simp

/-- A single-query search returns the docids matched in each sealed segment, in roster
order. -/
theorem SearchDocIds_single_spec (s : Index) (passes : FSSearchFilted → Content → Bool)
    (weight : Nat → Nat → Nat) (query : FSSearchQuery) (filteds : List FSSearchFilted) :
    resultDocids (s.SearchDocIds (specSearchEnv passes weight) [query] filteds)
      = some (some ((s.segments.map (fun seg =>
          (seg.SearchDocIds passes query filteds s.bitmap []).map
            (fun node => node.Docid))).flatten), true) := by
  have h : s.searchSegments (specSearchEnv passes weight) query filteds []
      = (s.segments.map (fun seg => seg.SearchDocIds passes query filteds s.bitmap [])).flatten := by
    unfold Index.searchSegments specSearchEnv
    rw [foldl_SearchDocIds]
    simp
  have hw : (specSearchEnv passes weight).ComputeWeight = ComputeWeight weight := rfl
  simp only [Index.SearchDocIds, h, hw, resultDocids, ComputeWeight, List.length_singleton,
    if_true, Option.map_some', List.map_map]
  simp [List.map_flatten, Function.comp_def]

/-- A stored document that matches the query, passes the filters and is not deleted is among
the matches of its segment. -/
theorem mem_SegSearchDocIds (passes : FSSearchFilted → Content → Bool) (seg : Segment)
    (query : FSSearchQuery) (filteds : List FSSearchFilted) (bitmap : Bitmap)
    (docid : Nat) (content : Content) (hd : (docid, content) ∈ seg.docs)
    (hmatch : queryMatches query content = true)
    (hpass : filteds.all (fun f => passes f content) = true)
    (hlive : docid ∉ bitmap) :
    docid ∈ (seg.SearchDocIds passes query filteds bitmap []).map (fun node => node.Docid) := by
  simp only [Segment.SearchDocIds, List.nil_append, List.map_map, List.mem_map, List.mem_filter]
  refine ⟨(docid, content), ⟨hd, ?_⟩, rfl⟩
  simp [hmatch, hpass, hlive]

/-- A successful `UpdateDocument` leaves the bitmap alone. -/
theorem UpdateDocument_bitmap_of_success (this : Index) (o : Outcomes) (content : Content)
    (hr : (this.UpdateDocument o content).1 = none) :
    (this.UpdateDocument o content).2.bitmap = this.bitmap := by
  rcases UpdateDocument_cases this o content with h | ⟨err, h⟩ | ⟨err, h⟩ | ⟨db, h⟩
  · rw [h] at hr; exact absurd hr (by simp)
  · rw [h] at hr; exact absurd hr (by simp)
  · rw [h] at hr; exact absurd hr (by simp)
  · rw [h]
    exact prepared_bitmap this

/-- A matching, undeleted document of a sealed segment is in the result of a single-query
search. -/
theorem mem_SearchDocIds_single (s : Index) (passes : FSSearchFilted → Content → Bool)
    (weight : Nat → Nat → Nat) (query : FSSearchQuery) (filteds : List FSSearchFilted)
    (seg : Segment) (hseg : seg ∈ s.segments)
    (docid : Nat) (content : Content) (hd : (docid, content) ∈ seg.docs)
    (hmatch : queryMatches query content = true)
    (hpass : filteds.all (fun f => passes f content) = true)
    (hlive : docid ∉ s.bitmap) :
    ∃ docids, resultDocids (s.SearchDocIds (specSearchEnv passes weight) [query] filteds)
        = some (some docids, true) ∧ docid ∈ docids := by
  refine ⟨_, SearchDocIds_single_spec s passes weight query filteds, ?_⟩
  rw [List.mem_flatten]
  exact ⟨_, List.mem_map.2 ⟨seg, hseg, rfl⟩,
    mem_SegSearchDocIds passes seg query filteds s.bitmap docid content hd hmatch hpass hlive⟩

/-- Supporting result for C1: on an index whose `MaxDocId` is a `uint32`, a call of
`UpdateDocument` either returns an error with `MaxDocId` as before the call (no field, meta
persistence of the new mutable segment, primary-key `Set`, missing primary-key value), or
it reaches `Segment.AddDocument`, returns the result of that call, whether an error or not,
and leaves `MaxDocId` advanced by one. -/
theorem UpdateDocument_MaxDocId (this : Index) (o : Outcomes) (content : Content)
    (hlt : this.MaxDocId < 2 ^ 32) :
    ((this.UpdateDocument o content).1 ≠ none ∧
      (this.UpdateDocument o content).2.MaxDocId = this.MaxDocId)
    ∨ ((this.UpdateDocument o content).1 = o.AddDocument ∧
      (this.UpdateDocument o content).2.MaxDocId = (this.MaxDocId + 1) % 2 ^ 32) := by
  rcases UpdateDocument_cases this o content with h | ⟨err, h⟩ | ⟨err, h⟩ | ⟨db, h⟩
  · rw [h]; exact Or.inl ⟨by simp, rfl⟩
  · rw [h]; exact Or.inl ⟨by simp, prepared_MaxDocId this⟩
  · rw [h]; exact Or.inl ⟨by simp, rollback_eq _ hlt⟩
  · rw [h]; exact Or.inr ⟨rfl, rfl⟩


/-- C1, evaluated at a failing input: on scenario S1 a call of `UpdateDocument` in which
`Segment.AddDocument` returns an error returns that error, and `MaxDocId` is left advanced
by one (2 instead of 1), although the three earlier error paths of the same function roll
the counter back. -/
theorem C1_addDocument_error_leaves_MaxDocId_advanced :
    (scenarioS1.UpdateDocument Outcomes.addDocumentFails docA2).1
        = some "add document failed" ∧
    scenarioS1.MaxDocId = 1 ∧
    (scenarioS1.UpdateDocument Outcomes.addDocumentFails docA2).2.MaxDocId = 2 := by
  decide

/-! ## C2 -/

/-- C2 as stated fails: after two successful writes of documents with primary-key value
`"a"` on scenario S1's schema, the docid of the first write (0) is not in the deletion
bitmap. -/
theorem C2_first_docid_not_in_bitmap :
    scenarioSchema.PrimaryKey ≠ DEFAULT_PRIMARY_KEY ∧
    docA.lookup scenarioSchema.PrimaryKey = some "a" ∧
    docA2.lookup scenarioSchema.PrimaryKey = some "a" ∧
    (scenarioSchema.UpdateDocument Outcomes.ok docA).1 = none ∧
    ((scenarioSchema.UpdateDocument Outcomes.ok docA).2.UpdateDocument Outcomes.ok docA2).1
      = none ∧
    scenarioSchema.MaxDocId ∉
      ((scenarioSchema.UpdateDocument Outcomes.ok docA).2.UpdateDocument Outcomes.ok
        docA2).2.bitmap := by
  decide

/-- C2, amended: for an index whose primary key is a declared field, after two successful
`UpdateDocument` calls whose content carries the same primary-key value `v`, the primary
tree maps `v` to the docid of the second call (the value of `MaxDocId` before it), and the
deletion bitmap is the one before the two calls: the write path marks nothing deleted. -/
theorem C2_second_docid_installed_bitmap_untouched (this : Index) (o1 o2 : Outcomes)
    (c1 c2 : Content) (v : String)
    (hpk : this.PrimaryKey ≠ DEFAULT_PRIMARY_KEY)
    (h1 : c1.lookup this.PrimaryKey = some v) (h2 : c2.lookup this.PrimaryKey = some v)
    (hr1 : (this.UpdateDocument o1 c1).1 = none)
    (hr2 : ((this.UpdateDocument o1 c1).2.UpdateDocument o2 c2).1 = none) :
    ((this.UpdateDocument o1 c1).2.UpdateDocument o2 c2).2.primary.Search this.PrimaryKey v
        = (true, (this.UpdateDocument o1 c1).2.MaxDocId) ∧
    ((this.UpdateDocument o1 c1).2.UpdateDocument o2 c2).2.bitmap = this.bitmap := by
  obtain ⟨-, hk, hb⟩ := UpdateDocument_pk_success this o1 c1 v hpk h1 hr1
  obtain ⟨hs, -, hb2⟩ := UpdateDocument_pk_success (this.UpdateDocument o1 c1).2 o2 c2 v
    (by rw [hk]; exact hpk) (by rw [hk]; exact h2) hr2
  rw [hk] at hs
  exact ⟨hs, by rw [hb2, hb]⟩

/-- C2, amended, on the two writes of documents with primary-key value `"a"`. -/
theorem C2_second_docid_installed_bitmap_untouched_witness :
    ((scenarioSchema.UpdateDocument Outcomes.ok docA).2.UpdateDocument Outcomes.ok
        docA2).2.primary.Search scenarioSchema.PrimaryKey "a"
        = (true, (scenarioSchema.UpdateDocument Outcomes.ok docA).2.MaxDocId) ∧
    ((scenarioSchema.UpdateDocument Outcomes.ok docA).2.UpdateDocument Outcomes.ok
        docA2).2.bitmap = scenarioSchema.bitmap :=
  C2_second_docid_installed_bitmap_untouched scenarioSchema Outcomes.ok Outcomes.ok docA docA2
    "a" (by decide) (by decide) (by decide) (by decide) (by decide)

/-! ## C3 -/

/-- C3 as stated fails: in scenario S1 the write succeeds and is assigned docid 0, yet
`GetDocument(0)` with no intervening flush does not return the document. -/
theorem C3_GetDocument_misses_unflushed_document :
    (scenarioSchema.UpdateDocument Outcomes.ok docA).1 = none ∧
    scenarioSchema.MaxDocId = 0 ∧
    scenarioS1.GetDocument 0 ≠ (some docA, true) := by
  decide

/-- C3, amended: `GetDocument` scans the sealed roster only. For a docid assigned by a
successful `UpdateDocument(content)` that lies in no sealed segment's range, a following
`GetDocument(docid)` with no intervening flush returns `(nil, false)`, and `MaxDocId` is the
docid plus one; after a successful `SyncMemorySegment` it returns `(content, true)` (the
mutable segment, when it exists, starts at or before the docid and holds no document under
it, and the docid is below `2^32 - 1`). -/
theorem C3_GetDocument_finds_document_after_flush_only (this : Index) (o o2 : Outcomes)
    (content : Content)
    (hupd : (this.UpdateDocument o content).1 = none)
    (hsealed : ∀ seg ∈ this.segments,
      ¬ (seg.StartDocId ≤ this.MaxDocId ∧ this.MaxDocId < seg.MaxDocId))
    (hmem : ∀ seg ∈ this.memorySegment,
      seg.StartDocId ≤ this.MaxDocId ∧ seg.docs.lookup this.MaxDocId = none)
    (hbound : this.MaxDocId + 1 < 2 ^ 32)
    (hsync : ((this.UpdateDocument o content).2.SyncMemorySegment o2).1 = none) :
    (this.UpdateDocument o content).2.GetDocument this.MaxDocId = (none, false) ∧
    (this.UpdateDocument o content).2.MaxDocId = this.MaxDocId + 1 ∧
    ((this.UpdateDocument o content).2.SyncMemorySegment o2).2.GetDocument this.MaxDocId
      = (some content, true) := by
  obtain ⟨hm, hmax, hsegs, -⟩ := UpdateDocument_success this o content hupd
  have hmod : (this.MaxDocId + 1) % 2 ^ 32 = this.MaxDocId + 1 := Nat.mod_eq_of_lt hbound
  have hw : this.writeSegment.StartDocId ≤ this.MaxDocId ∧
      this.writeSegment.docs.lookup this.MaxDocId = none := by
    cases hms : this.memorySegment with
    | some seg =>
      rw [writeSegment_some this seg hms]
      exact hmem seg (by simp [hms])
    | none =>
      rw [writeSegment_none this hms]
      simp [Index.freshSegment, NewEmptySegmentWithFieldsInfo]
  refine ⟨?_, by rw [hmax, hmod], ?_⟩
  · unfold Index.GetDocument
    rw [hsegs]
    exact getDocumentLoop_none _ _ hsealed
  · rw [SyncMemorySegment_success _ o2 _ hm hsync]
    unfold Index.GetDocument
    simp only [hsegs]
    have happ := getDocumentLoop_append this.MaxDocId this.segments
      { this.writeSegment with
        MaxDocId := (this.MaxDocId + 1) % 2 ^ 32
        docs := this.writeSegment.docs ++ [(this.MaxDocId, content)] }
      hsealed ⟨hw.1, by show _ < (this.MaxDocId + 1) % 2 ^ 32; rw [hmod]; omega⟩
    rw [happ]
    simp [Segment.GetDocument, List.lookup_append, hw.2, List.lookup_cons]

/-- C3, amended, on scenario S1: `GetDocument(0)` returns `(nil, false)` and `MaxDocId` is
1; after `SyncMemorySegment`, `GetDocument(0)` returns the document. -/
theorem C3_GetDocument_finds_document_after_flush_only_witness :
    scenarioS1.GetDocument 0 = (none, false) ∧
    scenarioS1.MaxDocId = 1 ∧
    (scenarioS1.SyncMemorySegment Outcomes.ok).2.GetDocument 0 = (some docA, true) :=
  C3_GetDocument_finds_document_after_flush_only scenarioSchema Outcomes.ok Outcomes.ok docA
    (by decide) (by decide) (by decide) (by decide) (by decide)

/-! ## C4 -/

/-- Supporting result for C4: along every run from the empty index in which no call of
`Segment.AddDocument` fails, the roster stays contiguous and its last segment ends at
`MaxDocId`; when moreover the run has fewer than `2^32` calls, every docid lies in at most
one segment's range. -/
theorem roster_contiguous_of_run (name pathname : String) (calls : List (Outcomes × Op))
    (s : Index)
    (hadd : ∀ c ∈ calls, c.1.AddDocument = none)
    (hrun : (NewEmptyIndex name pathname).run calls = some s) :
    s.contiguous = true ∧ (∀ last ∈ s.roster.getLast?, last.MaxDocId = s.MaxDocId) ∧
    (calls.length < 2 ^ 32 → ∀ docid,
      (s.roster.filter
        (fun seg => decide (seg.StartDocId ≤ docid ∧ docid < seg.MaxDocId))).length ≤ 1) := by
  have h0 : rosterInv (NewEmptyIndex name pathname).ranges (NewEmptyIndex name pathname).MaxDocId 0 := by
    refine ⟨?_, ?_, ?_, fun _ => ⟨?_, le_rfl⟩⟩
    · simp [Index.ranges, Index.roster, NewEmptyIndex, linked]
    · simp [Index.ranges, Index.roster, NewEmptyIndex, endsAt]
    · simp [NewEmptyIndex]
    · simp [Index.ranges, Index.roster, NewEmptyIndex, ordered]
  have h := rosterInv_run calls _ s 0 h0 hadd hrun
  rw [Nat.zero_add] at h
  obtain ⟨hl, he, -, hk⟩ := h
  refine ⟨(contiguousList_iff _).2 hl, ?_, fun hlen docid => ?_⟩
  · intro last hlast
    refine he last.range ?_
    unfold Index.ranges
    rw [List.getLast?_map]
    simp only [Option.mem_def] at hlast
    simp [hlast]
  · have := inRange_unique s.ranges hl (hk hlen).1 docid
    unfold Index.ranges at this
    rw [List.filter_map, List.length_map] at this
    exact this

/-- C4, evaluated at a failing input: after `AddField(body)`, a successful
`UpdateDocument`, an `UpdateDocument` in which `Segment.AddDocument` fails, and
`AddField(tag)`, the roster is the sealed segment `[0, 1)` followed by a mutable segment
starting at 2: it is not contiguous. -/
theorem C4_roster_gap_after_failed_AddDocument :
    ((NewEmptyIndex "idx" "/data/").run gapRun).map
        (fun s => (s.segments.map Segment.range, s.memorySegment.map Segment.range, s.MaxDocId,
          s.contiguous))
      = some ([(0, 1)], some (2, 2), 2, false) := by
  decide

/-! ## C5 -/

/-- C5, evaluated at a failing input: after `AddField(body)` and `SyncMemorySegment` the
index has no mutable segment, `body` is in the schema and is not the primary key, and
`DeleteField("body")` dereferences the nil mutable segment (the call panics). -/
theorem C5_DeleteField_dereferences_nil_segment :
    ((NewEmptyIndex "idx" "/data/").run flushedRun).map
        (fun s => (s.memorySegment, (s.Fields.lookup "body").isSome, s.PrimaryKey))
      = some (none, true, DEFAULT_PRIMARY_KEY) ∧
    "body" ≠ DEFAULT_PRIMARY_KEY ∧
    ((NewEmptyIndex "idx" "/data/").run flushedRun).map
        (fun s => s.DeleteField Outcomes.ok "body")
      = some none := by
  decide

/-! ## C6 -/

/-- C6, evaluated at the failing input: for every index, whatever the collaborators and the
filters, `SearchDocIds` on the empty list of queries does not return: the slice expression
`querys[1:]` is out of range. -/
theorem C6_SearchDocIds_empty_querys_panics (this : Index) (env : SearchEnv)
    (filteds : List FSSearchFilted) :
    this.SearchDocIds env [] filteds = none := by
  rfl

/-! ## C7 -/

/-- Supporting result for C7: `MergeSegments` always returns; `mergeSegments[0]` is never
out of range. -/
theorem MergeSegments_returns (this : Index) (o : Outcomes) :
    ∃ r, this.MergeSegments o = some r := by
  cases hf : findStartIdx this.segments with
  | none => exact ⟨_, MergeSegments_none this o hf⟩
  | some i =>
    obtain ⟨first, rest, -, hm⟩ := MergeSegments_start this o i hf
    exact ⟨_, hm⟩


/-- C7 as stated fails: on the index with one sealed segment `/data/idx_1000`,
`MergeSegments` whose final meta persistence fails returns that error, and the sealed
roster and `SegmentNames` now hold the merged segment `/data/idx_1001` instead. -/
theorem C7_roster_replaced_when_final_store_fails :
    (NewEmptyIndex "idx" "/data/").run oneSealedRun = some oneSealed ∧
    oneSealed.SegmentNames = ["/data/idx_1000"] ∧
    (oneSealed.MergeSegments Outcomes.finalStoreFails).map
        (fun r => (r.1, r.2.SegmentNames, r.2.segments.map (fun seg => seg.SegmentName)))
      = some (some "write meta failed", ["/data/idx_1001"], ["/data/idx_1001"]) := by
  decide

/-- C7, amended: if `MergeSegments` returns an error, then either it is the error of the
meta persistence that precedes the rewrite, and the state is the one before the call with
only `PrefixSegment` advanced by one (a `uint64`), so that the sealed roster (segments and
`SegmentNames`) is the same as before the call; or it is the error of the final meta
persistence, and in the state before the call `PrefixSegment` is advanced and the tail of the
roster from the first small segment on is replaced by the merged segment, which starts where
that segment starts, under the newly minted name. -/
theorem C7_roster_unchanged_when_first_store_fails (this : Index) (o : Outcomes) (err : String) (next : Index)
    (h : this.MergeSegments o = some (some err, next)) :
    (o.WriteToJson = some err ∧
      next = { this with PrefixSegment := (this.PrefixSegment + 1) % 2 ^ 64 } ∧
      next.segments = this.segments ∧ next.SegmentNames = this.SegmentNames)
    ∨ (o.WriteToJson = none ∧ o.WriteToJson2 = some err ∧
      ∃ (i : Nat) (sg merged : Segment), findStartIdx this.segments = some i ∧
        this.segments[i]? = some sg ∧
        merged.SegmentName = this.newSegmentName ∧
        merged.StartDocId = sg.StartDocId ∧
        next = { this with
          PrefixSegment := (this.PrefixSegment + 1) % 2 ^ 64
          segments := this.segments.take i ++ [merged]
          SegmentNames := this.SegmentNames.take i ++ [this.newSegmentName] }) := by
  cases hf : findStartIdx this.segments with
  | none =>
    rw [MergeSegments_none this o hf] at h
    simp at h
  | some i =>
    obtain ⟨first, rest, hdrop, hm⟩ := MergeSegments_start this o i hf
    have hfirst : this.segments[i]? = some first := by
      have h1 : (this.segments.drop i)[0]? = some first := by rw [hdrop]; simp
      rw [List.getElem?_drop] at h1
      simpa using h1
    rw [hm] at h
    cases hw : o.WriteToJson with
    | some e =>
      simp only [hw, Option.some.injEq, Prod.mk.injEq] at h
      obtain ⟨he, hn⟩ := h
      subst hn
      subst he
      exact Or.inl ⟨rfl, rfl, rfl, rfl⟩
    | none =>
      simp only [hw, Option.some.injEq, Prod.mk.injEq] at h
      obtain ⟨he, hn⟩ := h
      exact Or.inr ⟨rfl, he, i, first,
        NewSegmentWithLocalFile
          ((NewEmptySegmentWithFieldsInfo this.newSegmentName first.StartDocId
            this.nonPKFields).MergeSegments (first :: rest)),
        rfl, hfirst, rfl, rfl, hn.symm⟩

/-- C7, amended, on the index with one sealed segment when the first meta persistence
fails: `MergeSegments` returns the error and only `PrefixSegment` moves, from 1001 to
1002. -/
theorem C7_roster_unchanged_when_first_store_fails_witness :
    ((Outcomes.storeFails.WriteToJson = some "write meta failed" ∧
      ({ oneSealed with PrefixSegment := 1002 } : Index)
        = { oneSealed with PrefixSegment := (oneSealed.PrefixSegment + 1) % 2 ^ 64 } ∧
      ({ oneSealed with PrefixSegment := 1002 } : Index).segments = oneSealed.segments ∧
      ({ oneSealed with PrefixSegment := 1002 } : Index).SegmentNames = oneSealed.SegmentNames)
    ∨ (Outcomes.storeFails.WriteToJson = none ∧
      Outcomes.storeFails.WriteToJson2 = some "write meta failed" ∧
      ∃ (i : Nat) (sg merged : Segment), findStartIdx oneSealed.segments = some i ∧
        oneSealed.segments[i]? = some sg ∧
        merged.SegmentName = oneSealed.newSegmentName ∧
        merged.StartDocId = sg.StartDocId ∧
        ({ oneSealed with PrefixSegment := 1002 } : Index) = { oneSealed with
          PrefixSegment := (oneSealed.PrefixSegment + 1) % 2 ^ 64
          segments := oneSealed.segments.take i ++ [merged]
          SegmentNames := oneSealed.SegmentNames.take i ++ [oneSealed.newSegmentName] })) ∧
    oneSealed.PrefixSegment = 1001 ∧
    oneSealed.MergeSegments Outcomes.storeFails
      = some (some "write meta failed", { oneSealed with PrefixSegment := 1002 }) :=
  ⟨C7_roster_unchanged_when_first_store_fails oneSealed Outcomes.storeFails "write meta failed" { oneSealed with PrefixSegment := 1002 }
    (by decide), by decide, by decide⟩

/-! ## C8 -/

/-- C8: when a call of `SyncMemorySegment` succeeds, a second call directly after it
returns success and leaves the whole index state (roster, `SegmentNames`, mutable slot,
counters) as the first call left it; and on every index with no mutable segment
`SyncMemorySegment` returns success and changes nothing. -/
theorem C8_SyncMemorySegment_idempotent (this : Index) (o1 o2 : Outcomes)
    (h : (this.SyncMemorySegment o1).1 = none) :
    (this.SyncMemorySegment o1).2.SyncMemorySegment o2 = (none, (this.SyncMemorySegment o1).2) ∧
    ({ this with memorySegment := none } : Index).SyncMemorySegment o2
      = (none, { this with memorySegment := none }) := by
  refine ⟨?_, SyncMemorySegment_nil _ o2 rfl⟩
  apply SyncMemorySegment_nil
  cases hm : this.memorySegment with
  | none => rw [SyncMemorySegment_nil this o1 hm]; exact hm
  | some seg => rw [SyncMemorySegment_success this o1 seg hm h]

/-- C8 on scenario S1, where the first flush seals the mutable segment. -/
theorem C8_SyncMemorySegment_idempotent_witness :
    (scenarioS1.SyncMemorySegment Outcomes.ok).2.SyncMemorySegment Outcomes.ok
      = (none, (scenarioS1.SyncMemorySegment Outcomes.ok).2) ∧
    ({ scenarioS1 with memorySegment := none } : Index).SyncMemorySegment Outcomes.ok
      = (none, { scenarioS1 with memorySegment := none }) :=
  C8_SyncMemorySegment_idempotent scenarioS1 Outcomes.ok Outcomes.ok (by decide)

/-! ## C9 -/

/-- C9 as stated fails: after `AddField(pk: PK)` and `AddField(pk2: PK)` on the empty index
the field map holds two entries of type `PRIMARY_KEY`, `pk` and `pk2`, and `PrimaryKey` is
`pk2`. -/
theorem C9_two_primary_key_entries :
    (∀ c ∈ twoPkRun, c.2.isSchema = true) ∧
    ((NewEmptyIndex "idx" "/data/").run twoPkRun).map
        (fun s => (s.pkEntries.map (fun kv => kv.1), s.PrimaryKey))
      = some (["pk", "pk2"], "pk2") := by
  decide

/-- C9, amended: in every state reachable from `NewEmptyIndex` by a sequence of `AddField`
and `DeleteField` calls of which at most one is an `AddField` of a field of type
`PRIMARY_KEY`, at most one entry of `Fields` has type `PRIMARY_KEY`, and that entry's name
is `PrimaryKey`. -/
theorem C9_at_most_one_primary_key_entry (name pathname : String)
    (calls : List (Outcomes × Op)) (s : Index)
    (hschema : ∀ c ∈ calls, c.2.isSchema = true)
    (hone : countAddsPK calls ≤ 1)
    (hrun : (NewEmptyIndex name pathname).run calls = some s) :
    s.pkEntries.length ≤ 1 ∧ ∀ kv ∈ s.pkEntries, kv.1 = s.PrimaryKey := by
  have h0 : pkInv (NewEmptyIndex name pathname) 0 :=
    ⟨by simp [Index.pkEntries, NewEmptyIndex], fun _ kv hkv => by
      simp [Index.pkEntries, NewEmptyIndex] at hkv⟩
  have h := pkInv_run calls _ 0 s h0 hschema hrun
  rw [Nat.zero_add] at h
  exact ⟨le_trans h.1 hone, h.2 hone⟩

/-- C9, amended, on the schema of scenario S1 (`AddField(pk: PK)`, `AddField(body)`). -/
theorem C9_at_most_one_primary_key_entry_witness :
    scenarioSchema.pkEntries.length ≤ 1 ∧
    ∀ kv ∈ scenarioSchema.pkEntries, kv.1 = scenarioSchema.PrimaryKey :=
  C9_at_most_one_primary_key_entry "idx" "/data/" onePkRun scenarioSchema (by decide)
    (by decide) (by decide)

/-! ## C10 -/

/-- C10, evaluated at a failing input: after `AddField(body)` and `AddField(tag)` on the
empty index, `DeleteField("body")` returns success and removes `body` from `Fields`, whose
only key is then `tag`, but `GetFields` still returns `body` and `tag`. -/
theorem C10_GetFields_keeps_deleted_field :
    (NewEmptyIndex "idx" "/data/").run twoFieldsRun = some beforeDelete ∧
    (beforeDelete.DeleteField Outcomes.ok "body").map (fun r => r.1) = some none ∧
    (beforeDelete.DeleteField Outcomes.ok "body").map
        (fun r => (r.2.GetFields, r.2.Fields.map (fun kv => kv.1)))
      = some (["body", "tag"], ["tag"]) := by
  decide

/-! ## C11 -/

/-- C11: for every index state and every field whose name is already a key of `Fields`,
whatever the field's type and whatever the collaborators would answer, `AddField` returns
nil and leaves the whole index state unchanged. -/
theorem C11_AddField_existing_name_is_noop (this : Index) (o : Outcomes) (field : SimpleFieldInfo)
    (h : field.FieldName ∈ this.Fields.map Prod.fst) :
    this.AddField o field = (none, this) :=
  AddField_dup this o field ((lookup_isSome_iff_mem_keys _ _).2 h)

/-- C11 on scenario S1: adding a field named `pk` again, with another type, changes
nothing. -/
theorem C11_AddField_existing_name_is_noop_witness :
    scenarioS1.AddField Outcomes.storeFails { FieldName := "pk", FieldType := 1 }
      = (none, scenarioS1) :=
  C11_AddField_existing_name_is_noop scenarioS1 Outcomes.storeFails { FieldName := "pk", FieldType := 1 } (by decide)

/-! ## C12 -/

/-- C12: for every index state and every name that is the current primary key or is not a
key of `Fields`, `DeleteField` returns nil and leaves the whole index state unchanged. -/
theorem C12_DeleteField_primary_key_or_unknown_is_noop (this : Index) (o : Outcomes) (fieldname : String)
    (h : fieldname = this.PrimaryKey ∨ fieldname ∉ this.Fields.map Prod.fst) :
    this.DeleteField o fieldname = some (none, this) := by
  rcases h with h | h
  · exact DeleteField_pk this o fieldname h
  · apply DeleteField_unknown
    cases hl : (this.Fields.lookup fieldname) with
    | none => rfl
    | some f =>
      exact absurd ((lookup_isSome_iff_mem_keys _ _).1 (by rw [hl]; rfl)) h

/-- C12 on scenario S1: deleting the primary key `pk`, and deleting the unknown field
`tag`. -/
theorem C12_DeleteField_primary_key_or_unknown_is_noop_witness :
    scenarioS1.DeleteField Outcomes.ok "pk" = some (none, scenarioS1) ∧
    scenarioS1.DeleteField Outcomes.ok "tag" = some (none, scenarioS1) :=
  ⟨C12_DeleteField_primary_key_or_unknown_is_noop scenarioS1 Outcomes.ok "pk" (by decide),
   C12_DeleteField_primary_key_or_unknown_is_noop scenarioS1 Outcomes.ok "tag" (by decide)⟩

/-! ## C13 -/

/-- C13: for every index whose field map is empty and every content map, `UpdateDocument`
returns the error `no field or segment is nil` and leaves the whole index state
unchanged. -/
theorem C13_UpdateDocument_rejects_empty_schema (this : Index) (o : Outcomes) (content : Content)
    (h : this.Fields = []) :
    this.UpdateDocument o content = (some "no field or segment is nil", this) :=
  UpdateDocument_noFields this o content (by rw [h]; rfl)

/-- C13 on the empty index. -/
theorem C13_UpdateDocument_rejects_empty_schema_witness :
    (NewEmptyIndex "idx" "/data/").UpdateDocument Outcomes.ok docA
      = (some "no field or segment is nil", NewEmptyIndex "idx" "/data/") :=
  C13_UpdateDocument_rejects_empty_schema (NewEmptyIndex "idx" "/data/") Outcomes.ok docA (by decide)

/-! ## C14 -/

/-- C14 as stated fails: `AddField` accepts a field of type `PRIMARY_KEY` whose name is the
reserved default name; `UpdateDocument` then takes the branch of the synthetic default key,
and a write whose content has no entry for the primary-key name returns nil, stores the
document under docid 0, advances `MaxDocId` from 0 to 1 and performs a `Set` on the primary
tree. -/
theorem C14_default_named_primary_key_write_succeeds :
    (NewEmptyIndex "idx" "/data/").run
        [(Outcomes.ok, Op.AddField fieldDefaultPk), (Outcomes.ok, Op.AddField fieldBody)]
      = some defaultNamedPkSchema ∧
    defaultNamedPkSchema.Fields.map Prod.fst = [DEFAULT_PRIMARY_KEY, "body"] ∧
    defaultNamedPkSchema.pkEntries = [(DEFAULT_PRIMARY_KEY, fieldDefaultPk)] ∧
    defaultNamedPkSchema.PrimaryKey = fieldDefaultPk.FieldName ∧
    defaultNamedPkSchema.PrimaryKey ∉ ([("body", "no key")] : Content).map Prod.fst ∧
    defaultNamedPkSchema.MaxDocId = 0 ∧
    (defaultNamedPkSchema.UpdateDocument Outcomes.ok [("body", "no key")]).1 = none ∧
    (defaultNamedPkSchema.UpdateDocument Outcomes.ok [("body", "no key")]).2.MaxDocId = 1 ∧
    (defaultNamedPkSchema.UpdateDocument Outcomes.ok [("body", "no key")]).2.memorySegment.map
        (fun seg => seg.docs) = some [(0, [("body", "no key")])] ∧
    (defaultNamedPkSchema.UpdateDocument Outcomes.ok [("body", "no key")]).2.primary.entries
      ≠ defaultNamedPkSchema.primary.entries := by
  decide

/-- C14, amended: for every index with a non-empty field map whose primary-key name is not
the reserved default name and every content map with no entry for the primary-key name,
`UpdateDocument` (the meta persistence succeeding when the call has to create the mutable
segment) returns the error `No Primary Key`; `MaxDocId`, a `uint32`, is at its value before
the call; the primary tree is as before the call (no `Set`); and the mutable segment is the
one that was there, or the newly created one, with the documents it had: none is added. -/
theorem C14_UpdateDocument_missing_primary_key (this : Index) (o : Outcomes) (content : Content)
    (hfields : this.Fields ≠ [])
    (hpk : this.PrimaryKey ≠ DEFAULT_PRIMARY_KEY)
    (hmissing : this.PrimaryKey ∉ content.map Prod.fst)
    (hcreate : this.memorySegment = none → o.WriteToJson = none)
    (hu32 : this.MaxDocId < 2 ^ 32) :
    (this.UpdateDocument o content).1 = some "No Primary Key" ∧
    (this.UpdateDocument o content).2.MaxDocId = this.MaxDocId ∧
    (this.UpdateDocument o content).2.primary = this.primary ∧
    (this.UpdateDocument o content).2.memorySegment = some this.writeSegment ∧
    this.writeSegment.docs = (this.memorySegment.map (fun seg => seg.docs)).getD [] := by
  have hf : this.Fields.length ≠ 0 := by
    intro h0
    exact hfields (List.eq_nil_of_length_eq_zero h0)
  have hl : content.lookup this.PrimaryKey = none := by
    cases hc : content.lookup this.PrimaryKey with
    | none => rfl
    | some v => exact absurd ((lookup_isSome_iff_mem_keys _ _).1 (by rw [hc]; rfl)) hmissing
  cases hm : this.memorySegment with
  | some seg =>
    rewrite [UpdateDocument_mem this o content seg hf hm,
      assignAndWrite_missing this o seg content hpk hl, writeSegment_some this seg hm,
      rollback_eq this.MaxDocId hu32]
    exact ⟨rfl, rfl, rfl, hm, rfl⟩
  | none =>
    rewrite [UpdateDocument_nil_ok this o content hf hm (hcreate hm),
      assignAndWrite_missing this.newMemorySegment o this.freshSegment content hpk hl,
      writeSegment_none this hm,
      show this.newMemorySegment.MaxDocId = this.MaxDocId from rfl,
      rollback_eq this.MaxDocId hu32]
    exact ⟨rfl, rfl, rfl, rfl, rfl⟩

/-- C14 on scenario S1 with a document that has no `pk` entry. -/
theorem C14_UpdateDocument_missing_primary_key_witness :
    (scenarioS1.UpdateDocument Outcomes.ok [("body", "no key")]).1 = some "No Primary Key" ∧
    (scenarioS1.UpdateDocument Outcomes.ok [("body", "no key")]).2.MaxDocId
      = scenarioS1.MaxDocId ∧
    (scenarioS1.UpdateDocument Outcomes.ok [("body", "no key")]).2.primary
      = scenarioS1.primary ∧
    (scenarioS1.UpdateDocument Outcomes.ok [("body", "no key")]).2.memorySegment
      = some scenarioS1.writeSegment ∧
    scenarioS1.writeSegment.docs = (scenarioS1.memorySegment.map (fun seg => seg.docs)).getD [] :=
  C14_UpdateDocument_missing_primary_key scenarioS1 Outcomes.ok [("body", "no key")] (by decide) (by decide) (by decide)
    (by decide) (by decide)

/-! ## C15 -/

/-- C15 as stated fails: after the two successful writes of scenario S2 with no flush, both
documents are in the mutable segment and match the query `{body, "hello"}`, yet
`SearchDocIds([{body, "hello"}], [])` returns an empty list of nodes (with `true`), not the
docids 0 and 1. -/
theorem C15_search_misses_unflushed_documents :
    (scenarioS1.UpdateDocument Outcomes.ok docB).1 = none ∧
    scenarioS2.memorySegment.map (fun seg => seg.docs.map (fun d => (d.1, queryMatches queryHello d.2)))
      = some [(0, true), (1, true)] ∧
    resultDocids (scenarioS2.SearchDocIds scenarioSearchEnv [queryHello] [])
      = some (some [], true) := by
  decide

/-- C15, amended: `SearchDocIds` fans out over the sealed roster only. Its result is the same
whatever the mutable segment holds; with the collaborators as the specification describes
them, a single-query search returns the docids matched in each sealed segment, in roster
order, so every stored document of a sealed segment that matches the query, passes the
filters and is not deleted is found. After a successful `UpdateDocument` the search returns
the docids it returned before the write; after a successful `SyncMemorySegment` that follows
it, the docid of the written document is in the result when the document matches.
Concretely, after the two writes of scenario S2 with no flush,
`SearchDocIds([{body, "hello"}], [])` returns no node, and after `SyncMemorySegment` it
returns exactly two nodes, with docids 0 and 1; whatever the collaborators are, the search
before the flush returns the weight routine applied to the empty buffer. -/
theorem C15_search_finds_document_after_flush_only (this : Index) (o o2 : Outcomes)
    (content : Content) (query : FSSearchQuery) (filteds : List FSSearchFilted)
    (passes : FSSearchFilted → Content → Bool) (weight : Nat → Nat → Nat) :
    (∀ (env : SearchEnv) (querys : List FSSearchQuery) (mem : Option Segment),
      ({ this with memorySegment := mem } : Index).SearchDocIds env querys filteds
        = this.SearchDocIds env querys filteds) ∧
    resultDocids (this.SearchDocIds (specSearchEnv passes weight) [query] filteds)
      = some (some ((this.segments.map (fun seg =>
          (seg.SearchDocIds passes query filteds this.bitmap []).map
            (fun node => node.Docid))).flatten), true) ∧
    (∀ seg ∈ this.segments, ∀ d ∈ seg.docs,
      queryMatches query d.2 = true → filteds.all (fun f => passes f d.2) = true →
      d.1 ∉ this.bitmap →
      ∃ docids, resultDocids (this.SearchDocIds (specSearchEnv passes weight) [query] filteds)
        = some (some docids, true) ∧ d.1 ∈ docids) ∧
    ((this.UpdateDocument o content).1 = none →
      resultDocids ((this.UpdateDocument o content).2.SearchDocIds (specSearchEnv passes weight)
          [query] filteds)
        = resultDocids (this.SearchDocIds (specSearchEnv passes weight) [query] filteds)) ∧
    ((this.UpdateDocument o content).1 = none →
      ((this.UpdateDocument o content).2.SyncMemorySegment o2).1 = none →
      queryMatches query content = true →
      filteds.all (fun f => passes f content) = true →
      this.MaxDocId ∉ this.bitmap →
      ∃ docids, resultDocids (((this.UpdateDocument o content).2.SyncMemorySegment o2).2.SearchDocIds
          (specSearchEnv passes weight) [query] filteds) = some (some docids, true) ∧
        this.MaxDocId ∈ docids) ∧
    resultDocids (scenarioS2.SearchDocIds scenarioSearchEnv [queryHello] [])
      = some (some [], true) ∧
    resultDocids ((scenarioS2.SyncMemorySegment Outcomes.ok).2.SearchDocIds scenarioSearchEnv
      [queryHello] []) = some (some [0, 1], true) ∧
    (∀ env : SearchEnv, scenarioS2.SearchDocIds env [queryHello] []
      = some (some (env.ComputeWeight [] 0 2), true)) := by
  refine ⟨fun env querys mem => SearchDocIds_congr this _ env querys filteds rfl rfl rfl,
    SearchDocIds_single_spec this passes weight query filteds, ?_, ?_, ?_, by decide, by decide,
    ?_⟩
  · intro seg hseg d hd hmatch hpass hlive
    exact mem_SearchDocIds_single this passes weight query filteds seg hseg d.1 d.2 hd hmatch
      hpass hlive
  · intro hupd
    rw [SearchDocIds_single_spec, SearchDocIds_single_spec,
      (UpdateDocument_sealed this o content).1, UpdateDocument_bitmap_of_success this o content hupd]
  · intro hupd hsync hmatch hpass hlive
    obtain ⟨hm, -, hsegs, -⟩ := UpdateDocument_success this o content hupd
    have hb := UpdateDocument_bitmap_of_success this o content hupd
    rw [SyncMemorySegment_success _ o2 _ hm hsync]
    refine mem_SearchDocIds_single _ passes weight query filteds
      { this.writeSegment with
        MaxDocId := (this.MaxDocId + 1) % 2 ^ 32
        docs := this.writeSegment.docs ++ [(this.MaxDocId, content)] }
      ?_ this.MaxDocId content ?_ hmatch hpass ?_
    · show _ ∈ (this.UpdateDocument o content).2.segments ++ [_]
      simp
    · show _ ∈ this.writeSegment.docs ++ [(this.MaxDocId, content)]
      simp
    · show _ ∉ (this.UpdateDocument o content).2.bitmap
      rw [hb]
      exact hlive
  · intro env
    have h := SearchDocIds_no_sealed scenarioS2 env queryHello [] (by decide)
    have hmax : scenarioS2.MaxDocId = 2 := by decide
    rw [hmax] at h
    exact h

/-- C15, amended, on the second write of scenario S2, `{pk: "b", body: "hello rust"}`, which
is assigned docid 1: the query `{body, "hello"}` finds the same docids before and after the
unflushed write, and finds docid 1 after the flush. -/
theorem C15_search_finds_document_after_flush_only_witness :
    resultDocids ((scenarioS1.UpdateDocument Outcomes.ok docB).2.SearchDocIds scenarioSearchEnv
        [queryHello] [])
      = resultDocids (scenarioS1.SearchDocIds scenarioSearchEnv [queryHello] []) ∧
    (∃ docids, resultDocids (((scenarioS1.UpdateDocument Outcomes.ok docB).2.SyncMemorySegment
          Outcomes.ok).2.SearchDocIds scenarioSearchEnv [queryHello] []) = some (some docids, true) ∧
        scenarioS1.MaxDocId ∈ docids) ∧
    scenarioS1.MaxDocId = 1 :=
  ⟨(C15_search_finds_document_after_flush_only scenarioS1 Outcomes.ok Outcomes.ok docB queryHello []
      (fun _ _ => true) (fun df maxDocId => maxDocId / df)).2.2.2.1 (by decide),
   (C15_search_finds_document_after_flush_only scenarioS1 Outcomes.ok Outcomes.ok docB queryHello []
      (fun _ _ => true) (fun df maxDocId => maxDocId / df)).2.2.2.2.1 (by decide) (by decide)
      (by decide) (by decide) (by decide),
   by decide⟩

/-! ## C16 -/

/-- C16: for every index state whose mutable segment `seg` is non-empty and every
non-primary-key field whose name is not yet in the schema, if serialization and meta
persistence succeed then `AddField` returns nil, adds the field to the schema, appends
`seg` to the end of the roster, sets `SegmentNames` to the names of the roster segments in
order, installs a new empty mutable segment under the minted name that starts at `MaxDocId`
and whose fields are the non-PK fields of the old schema followed by the new field, that
is, exactly the fields of the updated schema that are not of type `PRIMARY_KEY`,
increments `PrefixSegment` by one (a `uint64`), and leaves `MaxDocId` unchanged. -/
theorem C16_AddField_seals_nonempty_segment (this : Index) (o : Outcomes) (field : SimpleFieldInfo) (seg : Segment)
    (hnew : field.FieldName ∉ this.Fields.map Prod.fst)
    (hpk : field.FieldType ≠ IDX_TYPE_PK)
    (hm : this.memorySegment = some seg) (hne : seg.IsEmpty = false)
    (hser : o.Serialization = none) (hstore : o.WriteToJson = none) :
    (this.AddField o field).1 = none ∧
    (this.AddField o field).2.Fields = this.Fields ++ [(field.FieldName, field)] ∧
    (this.AddField o field).2.segments = this.segments ++ [seg] ∧
    (this.AddField o field).2.SegmentNames
      = (this.segments ++ [seg]).map (fun sg => sg.SegmentName) ∧
    (this.AddField o field).2.memorySegment
      = some { SegmentName := this.Pathname ++ this.Name ++ "_" ++ toString this.PrefixSegment
               StartDocId := this.MaxDocId
               MaxDocId := this.MaxDocId
               fields := (this.Fields.map Prod.snd).filter
                 (fun f => f.FieldType != IDX_TYPE_PK) ++ [field]
               docs := [] } ∧
    (∀ newseg ∈ (this.AddField o field).2.memorySegment, ∀ f : SimpleFieldInfo,
      f ∈ newseg.fields ↔
        f ∈ (this.AddField o field).2.Fields.map Prod.snd ∧ f.FieldType ≠ IDX_TYPE_PK) ∧
    (this.AddField o field).2.PrefixSegment = (this.PrefixSegment + 1) % 2 ^ 64 ∧
    (this.AddField o field).2.MaxDocId = this.MaxDocId := by
  have hd : (this.Fields.lookup field.FieldName).isSome = false := by
    cases hl : (this.Fields.lookup field.FieldName).isSome with
    | false => rfl
    | true => exact absurd ((lookup_isSome_iff_mem_keys _ _).1 hl) hnew
  have hmem : (((this.withField field).sealSegment seg).newMemorySegment).memorySegment
      = some { SegmentName := this.Pathname ++ this.Name ++ "_" ++ toString this.PrefixSegment
               StartDocId := this.MaxDocId
               MaxDocId := this.MaxDocId
               fields := (this.Fields.map Prod.snd).filter
                 (fun f => f.FieldType != IDX_TYPE_PK) ++ [field]
               docs := [] } := by
    show some (NewEmptySegmentWithFieldsInfo ((this.withField field).sealSegment seg).newSegmentName
        ((this.withField field).sealSegment seg).MaxDocId
        ((this.withField field).sealSegment seg).nonPKFields) = _
    have h1 : ((this.withField field).sealSegment seg).newSegmentName = this.newSegmentName :=
      withField_newSegmentName this field
    have h2 : ((this.withField field).sealSegment seg).MaxDocId = this.MaxDocId :=
      withField_MaxDocId this field
    rw [h1, h2, withField_nonPKFields this field seg hpk]
    rfl
  have hF : (((this.withField field).sealSegment seg).newMemorySegment).Fields
      = this.Fields ++ [(field.FieldName, field)] := withField_Fields this field
  rewrite [AddField_seal_ok this o field seg hd hpk hm hne hser]
  refine ⟨hstore, hF, ?_, ?_, hmem, ?_, ?_, ?_⟩
  · show (this.withField field).segments ++ [seg] = this.segments ++ [seg]
    rw [withField_segments]
  · show ((this.withField field).segments ++ [seg]).map _ = _
    rw [withField_segments]
  · intro newseg hns f
    show f ∈ newseg.fields ↔
      f ∈ (((this.withField field).sealSegment seg).newMemorySegment).Fields.map Prod.snd ∧ _
    rw [hF]
    have hns' : (((this.withField field).sealSegment seg).newMemorySegment).memorySegment
        = some newseg := by simpa using hns
    rw [hmem] at hns'
    have := Option.some.inj hns'
    subst this
    simp only [List.mem_append, List.mem_filter, List.mem_singleton, List.map_append,
      List.map_cons, List.map_nil, bne_iff_ne, ne_eq]
    constructor
    · rintro (⟨h1, h2⟩ | h)
      · exact ⟨Or.inl h1, h2⟩
      · subst h; exact ⟨Or.inr rfl, hpk⟩
    · rintro ⟨h1 | h1, h2⟩
      · exact Or.inl ⟨h1, h2⟩
      · exact Or.inr h1
  · show ((this.withField field).PrefixSegment + 1) % 2 ^ 64 = _
    rw [withField_PrefixSegment]
  · exact withField_MaxDocId this field

/-- C16 on scenario S6: `AddField(tag)` after the two writes of scenario S2 seals the
segment holding docids 0 and 1; the new mutable segment is empty, starts at docid 2 and has
the fields `body` and `tag`. -/
theorem C16_AddField_seals_nonempty_segment_witness :
    ((scenarioS2.AddField Outcomes.ok fieldTag).1 = none ∧
    (scenarioS2.AddField Outcomes.ok fieldTag).2.Fields
      = scenarioS2.Fields ++ [(fieldTag.FieldName, fieldTag)] ∧
    (scenarioS2.AddField Outcomes.ok fieldTag).2.segments
      = scenarioS2.segments ++ [scenarioS2.writeSegment] ∧
    (scenarioS2.AddField Outcomes.ok fieldTag).2.SegmentNames
      = (scenarioS2.segments ++ [scenarioS2.writeSegment]).map (fun sg => sg.SegmentName) ∧
    (scenarioS2.AddField Outcomes.ok fieldTag).2.memorySegment
      = some { SegmentName :=
                 scenarioS2.Pathname ++ scenarioS2.Name ++ "_" ++ toString scenarioS2.PrefixSegment
               StartDocId := scenarioS2.MaxDocId
               MaxDocId := scenarioS2.MaxDocId
               fields := (scenarioS2.Fields.map Prod.snd).filter
                 (fun f => f.FieldType != IDX_TYPE_PK) ++ [fieldTag]
               docs := [] } ∧
    (∀ newseg ∈ (scenarioS2.AddField Outcomes.ok fieldTag).2.memorySegment,
      ∀ f : SimpleFieldInfo, f ∈ newseg.fields ↔
        f ∈ (scenarioS2.AddField Outcomes.ok fieldTag).2.Fields.map Prod.snd ∧
          f.FieldType ≠ IDX_TYPE_PK) ∧
    (scenarioS2.AddField Outcomes.ok fieldTag).2.PrefixSegment
      = (scenarioS2.PrefixSegment + 1) % 2 ^ 64 ∧
    (scenarioS2.AddField Outcomes.ok fieldTag).2.MaxDocId = scenarioS2.MaxDocId) ∧
    scenarioS2.MaxDocId = 2 ∧
    scenarioS2.writeSegment.docs.map (fun d => d.1) = [0, 1] ∧
    (scenarioS2.AddField Outcomes.ok fieldTag).2.memorySegment.map
        (fun sg => sg.StartDocId) = some 2 ∧
    (scenarioS2.AddField Outcomes.ok fieldTag).2.memorySegment.map
        (fun sg => sg.fields) = some [fieldBody, fieldTag] ∧
    (scenarioS2.AddField Outcomes.ok fieldTag).2.memorySegment.map
        (fun sg => sg.IsEmpty) = some true ∧
    (scenarioS2.AddField Outcomes.ok fieldTag).2.segments.map Segment.range = [(0, 2)] :=
  ⟨C16_AddField_seals_nonempty_segment scenarioS2 Outcomes.ok fieldTag scenarioS2.writeSegment
    (by decide) (by decide) (by decide) (by decide) (by decide) (by decide),
    by decide, by decide, by decide, by decide, by decide, by decide⟩

/-! ## C17 -/

/-- C17: if no sealed segment has fewer than `1000000` docids (`MaxDocId - StartDocId` on
`uint32`), `MergeSegments` returns nil and changes nothing. Otherwise let `i` be the least
roster index of such a segment `sg` (the slice `SegmentNames[:i]` being in range): when
`MergeSegments` returns nil, the new roster is the old `segments[0..i)` followed by exactly one
new segment, which starts at `sg.StartDocId` and has the newly minted name, `SegmentNames` is
the old `SegmentNames[0..i)` followed by that name, `PrefixSegment` is incremented by one (a
`uint64`), and everything else, `MaxDocId` and the mutable segment included, is unchanged. -/
theorem C17_MergeSegments_replaces_tail (this : Index) (o : Outcomes) :
    ((∀ sg ∈ this.segments, ¬ sg.docLen < 1000000) →
      this.MergeSegments o = some (none, this)) ∧
    (∀ (i : Nat) (sg : Segment) (next : Index),
      this.segments[i]? = some sg → sg.docLen < 1000000 →
      (∀ j sj, j < i → this.segments[j]? = some sj → ¬ sj.docLen < 1000000) →
      i ≤ this.SegmentNames.length →
      this.MergeSegments o = some (none, next) →
      ∃ merged : Segment,
        merged.StartDocId = sg.StartDocId ∧ merged.SegmentName = this.newSegmentName ∧
        next = { this with
          PrefixSegment := (this.PrefixSegment + 1) % 2 ^ 64
          segments := this.segments.take i ++ [merged]
          SegmentNames := this.SegmentNames.take i ++ [this.newSegmentName] }) := by
  refine ⟨fun hbig => MergeSegments_none this o (findStartIdx_none_of_all_big _ hbig), ?_⟩
  intro i sg next hget hsmall hleast _ hres
  have hf := findStartIdx_least this.segments i sg hget hsmall hleast
  obtain ⟨first, rest, hdrop, hm⟩ := MergeSegments_start this o i hf
  have hfirst : first = sg := by
    have h1 : (this.segments.drop i)[0]? = some first := by rw [hdrop]; simp
    rw [List.getElem?_drop] at h1
    simp only [Nat.add_zero] at h1
    rw [hget] at h1
    exact (Option.some.inj h1).symm
  rw [hm] at hres
  cases hw : o.WriteToJson with
  | some err =>
    rw [hw] at hres
    simp only [Option.some.injEq, Prod.mk.injEq] at hres
    exact absurd hres.1 (by simp)
  | none =>
    rw [hw] at hres
    simp only [Option.some.injEq, Prod.mk.injEq] at hres
    refine ⟨_, ?_, ?_, hres.2.symm⟩
    · rw [← hfirst]; rfl
    · rfl

/-- C17 on an index whose only sealed segment has `1000000` docids (nothing changes), and on
an index whose roster is that segment followed by a segment of one docid (least index 1):
the first segment and its name are kept and the tail is replaced by the merged segment. -/
theorem C17_MergeSegments_replaces_tail_witness :
    (bigIndex.MergeSegments Outcomes.ok = some (none, bigIndex)) ∧
    (∃ merged : Segment,
        merged.StartDocId = smallSegment.StartDocId ∧
        merged.SegmentName = bigSmallIndex.newSegmentName ∧
        bigSmallMerged = { bigSmallIndex with
          PrefixSegment := (bigSmallIndex.PrefixSegment + 1) % 2 ^ 64
          segments := bigSmallIndex.segments.take 1 ++ [merged]
          SegmentNames := bigSmallIndex.SegmentNames.take 1 ++ [bigSmallIndex.newSegmentName] }) ∧
    bigSmallMerged.SegmentNames = ["/data/idx_999", "/data/idx_1001"] ∧
    bigSmallMerged.segments.map Segment.range = [(0, 1000000), (1000000, 1000001)] :=
  ⟨(C17_MergeSegments_replaces_tail bigIndex Outcomes.ok).1 (by decide),
   (C17_MergeSegments_replaces_tail bigSmallIndex Outcomes.ok).2 1 smallSegment bigSmallMerged
     (by decide) (by decide)
     (fun j sj hj hsj => by
       have hj0 : j = 0 := by omega
       subst hj0
       have hsj' : sj = bigSegment := by
         have : bigSmallIndex.segments[0]? = some bigSegment := by decide
         rw [this] at hsj
         exact (Option.some.inj hsj).symm
       subst hsj'
       decide)
     (by decide) (by decide),
   by decide, by decide⟩

/-! ## C18 -/

/-- C19: in every state reachable from `NewEmptyIndex` by `AddField`, `DeleteField`,
`UpdateDocument`, `SyncMemorySegment` and `MergeSegments`, whether each call succeeds or
returns an error, `SegmentNames` has the length of the sealed roster and `SegmentNames[i]`
is the name of `segments[i]` for every `i`. -/
theorem C19_SegmentNames_names_roster (name pathname : String) (calls : List (Outcomes × Op)) (s : Index)
    (hrun : (NewEmptyIndex name pathname).run calls = some s) :
    s.SegmentNames.length = s.segments.length ∧
    ∀ i : Nat, s.SegmentNames[i]? = (s.segments[i]?).map (fun seg : Segment => seg.SegmentName) := by
  have h0 : (NewEmptyIndex name pathname).namesRoster := by
    unfold Index.namesRoster
    rfl
  have h : s.namesRoster := run_namesRoster calls _ s h0 hrun
  unfold Index.namesRoster at h
  refine ⟨by rw [h, List.length_map], fun i => ?_⟩
  rw [h, List.getElem?_map]

/-- C19 on a run in which a sealing `AddField`, a flush and a merge each return an error:
the one sealed segment left is the merged one and `SegmentNames` holds its name. -/
theorem C19_SegmentNames_names_roster_witness :
    (failingRunEnd.SegmentNames.length = failingRunEnd.segments.length ∧
      ∀ i : Nat, failingRunEnd.SegmentNames[i]?
        = (failingRunEnd.segments[i]?).map (fun seg : Segment => seg.SegmentName)) ∧
    failingRunEnd.SegmentNames = ["/data/idx_1003"] ∧
    failingRunEnd.segments.map Segment.range = [(0, 2)] ∧
    failingRunEnd.memorySegment.map Segment.range = some (2, 3) :=
  ⟨C19_SegmentNames_names_roster "idx" "/data/" failingRun failingRunEnd (by decide),
    by decide, by decide, by decide⟩

end FalconIndex
